import Mathlib

/-!
Shallow embedding of the `ip_tracking` rules engine (Django app):
request-log records, the block registry with expirable entries, the
suspicion tracker, the anomaly-detection scan, the auto-blocker, and the
statistics/blocking API views.  Instants are modelled as integer seconds;
the database tables are modelled as lists of records, with `now` passed
explicitly wherever the source calls `timezone.now()`.
-/

namespace IpTracking

/-- Instants (e.g. `timezone.now()`) as integer seconds. -/
abbrev Instant := Int

/-- `RequestLog` row (src/ip_tracking/models.py): ip, timestamp, path and
optional geolocation enrichment. -/
structure RequestRecord where
  ip_address : String
  timestamp : Instant
  path : String
  country : Option String := none
  city : Option String := none
deriving DecidableEq, Repr

/-- `BlockedIP` row (src/ip_tracking/models.py): unique ip, reason, creation
instant (`blocked_at`, set on insert), issuer (`blocked_by`) and optional
expiry (`expires_at`, `none` = permanent). -/
structure BlockedIPEntry where
  ip_address : String
  reason : String
  blocked_at : Instant
  blocked_by : String
  expires_at : Option Instant
deriving DecidableEq, Repr

/-- `SuspiciousIP` row (src/ip_tracking/models.py): flagged ip, free-form
reason, flag instant, request-count snapshot, resolution bit. -/
structure SuspiciousIPEntry where
  ip_address : String
  reason : String
  flagged_at : Instant
  request_count : Nat
  is_resolved : Bool
deriving DecidableEq, Repr

/-! ## Block Registry (`BlockedIP` class methods) -/

/-- `BlockedIP.is_expired`: an entry with no `expires_at` never expires;
otherwise it is expired iff `now > expires_at`. -/
def is_expired (e : BlockedIPEntry) (now : Instant) : Bool :=
  match e.expires_at with
  | none => false
  | some t => now > t

/-- `cls.objects.get(ip_address=...)` on the unique-keyed `BlockedIP` table
(returns the first match of the list model; under the uniqueness invariant
there is at most one). -/
def findEntry (blocked : List BlockedIPEntry) (ip : String) : Option BlockedIPEntry :=
  blocked.find? (fun e => e.ip_address == ip)

/-- `BlockedIP.is_blocked`: fetch the entry; if it is expired, delete it and
return `false`; if absent return `false`; otherwise return `true`.  Returns
the answer together with the (possibly reaped) table. -/
def is_blocked (blocked : List BlockedIPEntry) (ip : String) (now : Instant) :
    Bool × List BlockedIPEntry :=
  match findEntry blocked ip with
  | none => (false, blocked)
  | some e =>
    if is_expired e now then
      (false, blocked.filter (fun x => x.ip_address != ip))
    else
      (true, blocked)

/-- The expiry computed at the top of `BlockedIP.block_ip`:
`None` unless `duration_hours` is truthy (so `0` behaves like absent),
in which case `timezone.now() + timedelta(hours=duration_hours)`. -/
def computeExpiry (duration_hours : Option Nat) (now : Instant) : Option Instant :=
  match duration_hours with
  | none => none
  | some d => if d = 0 then none else some (now + 3600 * (d : Int))

/-- `BlockedIP.block_ip`: `get_or_create` keyed on ip; on creation the entry
takes the given reason/issuer/expiry and `blocked_at = now`; on an existing
entry, reason and issuer fall back to the prior values when the new ones are
empty (`reason or blocked.reason`), while `expires_at` is assigned
unconditionally.  Returns the updated table and the returned entry. -/
def block_ip (blocked : List BlockedIPEntry) (ip reason blocked_by : String)
    (duration_hours : Option Nat) (now : Instant) :
    List BlockedIPEntry × BlockedIPEntry :=
  let expires_at := computeExpiry duration_hours now
  match findEntry blocked ip with
  | none =>
    let e : BlockedIPEntry :=
      { ip_address := ip, reason := reason, blocked_at := now,
        blocked_by := blocked_by, expires_at := expires_at }
    (blocked ++ [e], e)
  | some e =>
    let e' : BlockedIPEntry :=
      { e with
        reason := if reason = "" then e.reason else reason,
        blocked_by := if blocked_by = "" then e.blocked_by else blocked_by,
        expires_at := expires_at }
    (blocked.map (fun x => if x.ip_address == ip then e' else x), e')

/-- `BlockedIP.unblock_ip`: delete the entry if present and report whether
anything was deleted. -/
def unblock_ip (blocked : List BlockedIPEntry) (ip : String) :
    List BlockedIPEntry × Bool :=
  match findEntry blocked ip with
  | none => (blocked, false)
  | some _ => (blocked.filter (fun x => x.ip_address != ip), true)

/-- The database-level uniqueness of `BlockedIP.ip_address`
(`unique=True`): at most one entry per ip. -/
def uniqIps (blocked : List BlockedIPEntry) : Prop :=
  (blocked.map (fun e => e.ip_address)).Nodup

instance (blocked : List BlockedIPEntry) : Decidable (uniqIps blocked) := by
  unfold uniqIps; infer_instance

/-! ## Anomaly Scanner (src/ip_tracking/tasks.py, `detect_anomalies`) -/

/-- Django `reason__contains=path`: substring test. -/
def containsSubstr (hay needle : String) : Bool :=
  decide (needle.data <:+: hay.data)

/-- Django `path__startswith=path` on a log row. -/
def pathStartsWith (r : RequestRecord) (p : String) : Bool :=
  decide (p.data <+: r.path.data)

/-- `RequestLog.objects.filter(timestamp__gte=one_hour_ago)`. -/
def windowLogs (logs : List RequestRecord) (cutoff : Instant) : List RequestRecord :=
  logs.filter (fun r => decide (cutoff ≤ r.timestamp))

/-- The distinct ips of `.values('ip_address').annotate(count=...)`. -/
def distinctIps (logs : List RequestRecord) : List String :=
  (logs.map (fun r => r.ip_address)).dedup

/-- The per-ip group size of `annotate(count=Count('ip_address'))`. -/
def ipCount (logs : List RequestRecord) (ip : String) : Nat :=
  (logs.filter (fun r => r.ip_address == ip)).length

/-- The f-string `f'High request volume: {count} requests in last hour'`. -/
def volumeReason (count : Nat) : String :=
  "High request volume: " ++ Nat.repr count ++ " requests in last hour"

/-- The f-string `f'Multiple attempts to {path}: {count} times in last hour'`. -/
def sensReason (p : String) (count : Nat) : String :=
  "Multiple attempts to " ++ p ++ ": " ++ Nat.repr count ++ " times in last hour"

/-- The `SuspiciousIP.objects.create(...)` of detection rule 1. -/
def mkVolumeFlag (ip : String) (count : Nat) (now : Instant) : SuspiciousIPEntry :=
  { ip_address := ip, reason := volumeReason count, flagged_at := now,
    request_count := count, is_resolved := false }

/-- The `SuspiciousIP.objects.create(...)` of detection rule 2. -/
def mkSensFlag (ip p : String) (count : Nat) (now : Instant) : SuspiciousIPEntry :=
  { ip_address := ip, reason := sensReason p count, flagged_at := now,
    request_count := count, is_resolved := false }

/-- `sensitive_paths = ['/admin', '/login', '/api/auth']`. -/
def sensitivePaths : List String := ["/admin", "/login", "/api/auth"]

/-- Rule 1's dedup query: a `SuspiciousIP` for this ip flagged within the
window exists (no condition on reason or resolution). -/
def recentFlagAny (flags : List SuspiciousIPEntry) (ip : String) (cutoff : Instant) : Bool :=
  flags.any (fun f => f.ip_address == ip && decide (cutoff ≤ f.flagged_at))

/-- Rule 2's dedup query: a `SuspiciousIP` for this ip flagged within the
window whose reason contains the sensitive path exists (no condition on
resolution). -/
def recentFlagWithReason (flags : List SuspiciousIPEntry) (ip : String) (cutoff : Instant)
    (p : String) : Bool :=
  flags.any (fun f =>
    f.ip_address == ip && decide (cutoff ≤ f.flagged_at) && containsSubstr f.reason p)

/-- One iteration of rule 1's loop body: for an ip of the high-volume query,
create a volume flag unless a window flag for the ip already exists.  The
accumulator carries the live `SuspiciousIP` table and `flagged_count`. -/
def ruleVolumeStep (wLogs : List RequestRecord) (cutoff now : Instant)
    (acc : List SuspiciousIPEntry × Nat) (ip : String) : List SuspiciousIPEntry × Nat :=
  let count := ipCount wLogs ip
  if 100 < count then
    if recentFlagAny acc.1 ip cutoff then acc
    else (acc.1 ++ [mkVolumeFlag ip count now], acc.2 + 1)
  else acc

/-- Detection rule 1 (high request volume, `count__gt=100`). -/
def ruleVolume (wLogs : List RequestRecord) (cutoff now : Instant)
    (acc : List SuspiciousIPEntry × Nat) : List SuspiciousIPEntry × Nat :=
  (distinctIps wLogs).foldl (ruleVolumeStep wLogs cutoff now) acc

/-- One iteration of rule 2's inner loop body for sensitive path `p`. -/
def ruleSensIpStep (pLogs : List RequestRecord) (p : String) (cutoff now : Instant)
    (acc : List SuspiciousIPEntry × Nat) (ip : String) : List SuspiciousIPEntry × Nat :=
  let count := ipCount pLogs ip
  if 10 < count then
    if recentFlagWithReason acc.1 ip cutoff p then acc
    else (acc.1 ++ [mkSensFlag ip p count now], acc.2 + 1)
  else acc

/-- Rule 2's outer loop body for one sensitive path (`count__gt=10`). -/
def ruleSensStep (wLogs : List RequestRecord) (cutoff now : Instant)
    (acc : List SuspiciousIPEntry × Nat) (p : String) : List SuspiciousIPEntry × Nat :=
  (distinctIps (wLogs.filter (fun r => pathStartsWith r p))).foldl
    (ruleSensIpStep (wLogs.filter (fun r => pathStartsWith r p)) p cutoff now) acc

/-- Detection rule 2 (sensitive path access attempts). -/
def ruleSens (wLogs : List RequestRecord) (cutoff now : Instant)
    (acc : List SuspiciousIPEntry × Nat) : List SuspiciousIPEntry × Nat :=
  sensitivePaths.foldl (ruleSensStep wLogs cutoff now) acc

/-- `detect_anomalies`: run rule 1 then rule 2 over the trailing-hour window,
starting from the current `SuspiciousIP` table; returns the updated table
and `flagged_count`. -/
def detect_anomalies (logs : List RequestRecord) (flags : List SuspiciousIPEntry)
    (now : Instant) : List SuspiciousIPEntry × Nat :=
  let cutoff := now - 3600
  let wLogs := windowLogs logs cutoff
  ruleSens wLogs cutoff now (ruleVolume wLogs cutoff now (flags, 0))

/-! ## Auto-Blocker (src/ip_tracking/tasks.py, `auto_block_suspicious_ips`) -/

/-- The whole database state the tasks and views touch (the `BlockedAttempt`
table is not involved in any operation modelled here). -/
structure DBState where
  logs : List RequestRecord
  blocked : List BlockedIPEntry
  flags : List SuspiciousIPEntry
deriving DecidableEq, Repr

/-- Per-ip size of the unresolved-flag group
(`filter(is_resolved=False).values('ip_address').annotate(flag_count=...)`). -/
def unresolvedCount (flags : List SuspiciousIPEntry) (ip : String) : Nat :=
  (flags.filter (fun f => !f.is_resolved && f.ip_address == ip)).length

/-- The distinct ips carrying at least one unresolved flag. -/
def flaggedIps (flags : List SuspiciousIPEntry) : List String :=
  ((flags.filter (fun f => !f.is_resolved)).map (fun f => f.ip_address)).dedup

/-- The ips selected by the auto-blocker (`filter(flag_count__gte=3)`). -/
def selectedIps (flags : List SuspiciousIPEntry) : List String :=
  (flaggedIps flags).filter (fun ip => decide (3 ≤ unresolvedCount flags ip))

/-- The fixed reason of an automatic block. -/
def autoBlockReason : String := "Automatically blocked: Multiple suspicious activity flags"

/-- `SuspiciousIP.objects.filter(ip_address=ip, is_resolved=False).update(is_resolved=True)`. -/
def resolveFlags (flags : List SuspiciousIPEntry) (ip : String) : List SuspiciousIPEntry :=
  flags.map (fun f =>
    if f.ip_address == ip && !f.is_resolved then { f with is_resolved := true } else f)

/-- Accumulator of the auto-blocker's loop: the live tables plus `blocked_count`. -/
structure AutoBlockAcc where
  blocked : List BlockedIPEntry
  flags : List SuspiciousIPEntry
  count : Nat
deriving DecidableEq, Repr

/-- One iteration of the auto-blocker's loop: check `is_blocked` (with its
lazy reap); when not blocked, block for 24 hours as "System", bump the
counter, and mark the ip's unresolved flags resolved.  When already blocked,
nothing else happens (in particular the flags stay untouched). -/
def autoBlockStep (now : Instant) (acc : AutoBlockAcc) (ip : String) : AutoBlockAcc :=
  let res := is_blocked acc.blocked ip now
  if res.1 then { acc with blocked := res.2 }
  else
    { blocked := (block_ip res.2 ip autoBlockReason "System" (some 24) now).1,
      flags := resolveFlags acc.flags ip,
      count := acc.count + 1 }

/-- `auto_block_suspicious_ips`: select the ips with at least 3 unresolved
flags, run the loop, return the new state and `blocked_count`. -/
def auto_block_suspicious_ips (s : DBState) (now : Instant) : DBState × Nat :=
  let r := (selectedIps s.flags).foldl (autoBlockStep now) ⟨s.blocked, s.flags, 0⟩
  ({ s with blocked := r.blocked, flags := r.flags }, r.count)

/-! ## Views (src/ip_tracking/views.py) -/

/-- The three scalar fields of `ip_statistics` (the `top_countries`
geolocation aggregation is independent presentation data untouched by every
operation modelled here and is not part of any claim). -/
structure Stats where
  total_requests : Nat
  blocked_ips : Nat
  suspicious_ips : Nat
deriving DecidableEq, Repr

/-- `ip_statistics`: note `blocked_ips` is `BlockedIP.objects.count()`,
an unfiltered row count. -/
def ip_statistics (s : DBState) : Stats :=
  { total_requests := s.logs.length,
    blocked_ips := s.blocked.length,
    suspicious_ips := (s.flags.filter (fun f => !f.is_resolved)).length }

/-- One element of the `list_blocked_ips` response. -/
structure BlockedIPView where
  ip_address : String
  reason : String
  blocked_at : Instant
  expires_at : Option Instant
  is_active : Bool
deriving DecidableEq, Repr

/-- `list_blocked_ips`: serialises every `BlockedIP` row, with the derived
`is_active = not ip.is_expired()`. -/
def list_blocked_ips (s : DBState) (now : Instant) : List BlockedIPView :=
  s.blocked.map (fun e =>
    { ip_address := e.ip_address, reason := e.reason, blocked_at := e.blocked_at,
      expires_at := e.expires_at, is_active := !is_expired e now })

/-! ## IP well-formedness and the block API view

The repository declares `ip_address` fields as `GenericIPAddressField`
("Client IP address (IPv4 or IPv6)"), but the code enforcing that
declaration is Django framework code that is not part of the repository's
sources.  The validator below is therefore modelled from the spec: "inputs
are plain IP-address strings (textual IPv4/IPv6, validated as well-formed
addresses — malformed input is rejected with a validation error)". -/

/-- Split a character list on a separator (every occurrence). -/
def splitChar (sep : Char) : List Char → List (List Char)
  | [] => [[]]
  | c :: cs =>
    let r := splitChar sep cs
    if c = sep then [] :: r
    else
      match r with
      | [] => [[c]]
      | g :: gs => (c :: g) :: gs

/-- Decimal value of a digit list. -/
def digitsVal (cs : List Char) : Nat :=
  cs.foldl (fun a c => a * 10 + (c.toNat - 48)) 0

/-- Modelled from the spec: a well-formed dotted-decimal IPv4 octet
(1 to 3 digits, no surplus leading zero, value at most 255). -/
def isValidIpv4Part (cs : List Char) : Bool :=
  decide (cs ≠ []) && decide (cs.length ≤ 3) && cs.all Char.isDigit &&
    (decide (cs.length = 1) || decide (cs.head? ≠ some '0')) &&
    decide (digitsVal cs ≤ 255)

/-- Modelled from the spec: a well-formed textual IPv4 address. -/
def isValidIpv4 (s : String) : Bool :=
  match splitChar '.' s.data with
  | [a, b, c, d] =>
    isValidIpv4Part a && isValidIpv4Part b && isValidIpv4Part c && isValidIpv4Part d
  | _ => false

/-- Hexadecimal digit. -/
def isHexChar (c : Char) : Bool :=
  c.isDigit || ('a' ≤ c && c ≤ 'f') || ('A' ≤ c && c ≤ 'F')

/-- A well-formed IPv6 group: 1 to 4 hexadecimal digits. -/
def isValidIpv6Group (cs : List Char) : Bool :=
  decide (cs ≠ []) && decide (cs.length ≤ 4) && cs.all isHexChar

/-- Modelled from the spec: a well-formed textual IPv6 address (full
8-group form, or one `::` compression — leading, trailing, inner, or the
bare `::`; zone suffixes and embedded-IPv4 tails are outside the model). -/
def isValidIpv6 (s : String) : Bool :=
  let gs := splitChar ':' s.data
  let ne := gs.filter (fun g => !g.isEmpty)
  ne.all isValidIpv6Group &&
    (if gs.all (fun g => !g.isEmpty) then decide (gs.length = 8)
     else
       (gs == ([[], [], []] : List (List Char))) ||
       (decide (3 ≤ gs.length) && gs.take 2 == ([[], []] : List (List Char)) &&
         (gs.drop 2).all (fun g => !g.isEmpty) && decide (ne.length ≤ 7)) ||
       (decide (3 ≤ gs.length) && gs.reverse.take 2 == ([[], []] : List (List Char)) &&
         (gs.reverse.drop 2).all (fun g => !g.isEmpty) && decide (ne.length ≤ 7)) ||
       (decide (gs.count ([] : List Char) = 1) && gs.head? != some [] &&
         gs.getLast? != some [] && decide (ne.length ≤ 7)))

/-- Modelled from the spec: well-formed textual IPv4 or IPv6 address. -/
def isValidIp (s : String) : Bool :=
  isValidIpv4 s || isValidIpv6 s

/-- Outcome of the block API view: HTTP 201 with the blocked ip, or an
HTTP 400 client error. -/
inductive ApiResult where
  | created (ip : String)
  | clientError (msg : String)
deriving DecidableEq, Repr

/-- Whether a response is the 400 branch. -/
def ApiResult.isError : ApiResult → Bool
  | .created _ => false
  | .clientError _ => true

/-- `block_ip_api`: a missing or empty `ip_address` is answered with 400
before anything runs; then the write is attempted.  The malformed-address
check is modelled from the spec (see above): the store's declared
`GenericIPAddressField` rejects a malformed ip with a validation error,
which the view's `except` branch maps to 400, before any row is written. -/
def block_ip_api (s : DBState) (ip_address : Option String) (reason : String)
    (issuer : String) (duration_hours : Option Nat) (now : Instant) :
    DBState × ApiResult :=
  match ip_address with
  | none => (s, ApiResult.clientError "ip_address is required")
  | some ip =>
    if ip = "" then (s, ApiResult.clientError "ip_address is required")
    else if isValidIp ip then
      let res := block_ip s.blocked ip reason issuer duration_hours now
      ({ s with blocked := res.1 }, ApiResult.created res.2.ip_address)
    else (s, ApiResult.clientError "Enter a valid IPv4 or IPv6 address.")

/-- The active-block notion of the spec: an entry for this ip exists and is
not expired (used to characterise `is_blocked`). -/
def hasActiveEntry (blocked : List BlockedIPEntry) (ip : String) (now : Instant) : Bool :=
  blocked.any (fun e => e.ip_address == ip && !is_expired e now)

/-! ## Concrete instances used by witnesses and counterexamples -/

/-- A permanent manual block. -/
def permEntry : BlockedIPEntry :=
  { ip_address := "1.2.3.4", reason := "manual abuse report", blocked_at := 0,
    blocked_by := "Admin", expires_at := none }

/-- A block whose expiry (instant 10) has passed at instant 100. -/
def expiredEntry : BlockedIPEntry :=
  { ip_address := "2.3.4.5", reason := "old block", blocked_at := 0,
    blocked_by := "Admin", expires_at := some 10 }

/-- A small registry state: one permanent and one expired entry. -/
def demoState : DBState :=
  { logs := [], blocked := [permEntry, expiredEntry], flags := [] }

/-- An unresolved suspicion flag against `9.9.9.9`. -/
def c1Flag (r : String) : SuspiciousIPEntry :=
  { ip_address := "9.9.9.9", reason := r, flagged_at := 10,
    request_count := 1, is_resolved := false }

/-- Three unresolved flags on an ip that is already permanently blocked. -/
def c1State : DBState :=
  { logs := [],
    blocked := [{ ip_address := "9.9.9.9", reason := "manual", blocked_at := 0,
                  blocked_by := "Admin", expires_at := none }],
    flags := [c1Flag "a", c1Flag "b", c1Flag "c"] }

/-- Three unresolved flags on an ip with no block entry. -/
def c1StateU : DBState :=
  { logs := [], blocked := [], flags := [c1Flag "a", c1Flag "b", c1Flag "c"] }

/-- The entry the auto-blocker creates for a newly blocked ip. -/
def autoEntry (ip : String) (now : Instant) : BlockedIPEntry :=
  { ip_address := ip, reason := autoBlockReason, blocked_at := now,
    blocked_by := "System", expires_at := computeExpiry (some 24) now }

/-- A request probing a sensitive path. -/
def c5Rec : RequestRecord :=
  { ip_address := "5.6.7.8", timestamp := 999990, path := "/admin/x" }

/-- Eleven sensitive-path requests from one ip within the window. -/
def c5Logs : List RequestRecord := List.replicate 11 c5Rec

/-- An already-resolved window flag whose reason mentions `/admin`. -/
def c5ResolvedFlag : SuspiciousIPEntry :=
  { ip_address := "5.6.7.8", reason := "Multiple attempts to /admin: 11 times in last hour",
    flagged_at := 999000, request_count := 11, is_resolved := true }

/-- An unresolved window flag for the same ip whose reason does not mention
`/admin` (a volume flag): it must not suppress the `/admin` creation. -/
def c5OtherFlag : SuspiciousIPEntry :=
  { ip_address := "5.6.7.8", reason := "High request volume: 500 requests in last hour",
    flagged_at := 999500, request_count := 500, is_resolved := false }

/-- One generic (non-sensitive-path) request from one ip. -/
def c4Rec : RequestRecord :=
  { ip_address := "1.2.3.4", timestamp := 999990, path := "/x" }

/-- 101 requests from one ip within the window. -/
def c4Logs : List RequestRecord := List.replicate 101 c4Rec

/-! ## Basic lemmas about the Block Registry -/

theorem findEntry_eq_none {blocked : List BlockedIPEntry} {ip : String} :
    findEntry blocked ip = none ↔ ∀ e ∈ blocked, e.ip_address ≠ ip := by
  unfold findEntry
  rw [List.find?_eq_none]
  simp

theorem findEntry_mem {blocked : List BlockedIPEntry} {ip : String} {e : BlockedIPEntry}
    (h : findEntry blocked ip = some e) : e ∈ blocked ∧ e.ip_address = ip := by
  refine ⟨List.mem_of_find?_eq_some h, ?_⟩
  simpa using List.find?_some h

theorem uniqIps_cons {x : BlockedIPEntry} {xs : List BlockedIPEntry}
    (hu : uniqIps (x :: xs)) :
    x.ip_address ∉ xs.map (fun e => e.ip_address) ∧ uniqIps xs := by
  unfold uniqIps at hu
  rw [List.map_cons, List.nodup_cons] at hu
  exact hu

theorem uniq_eq_of_ip {blocked : List BlockedIPEntry} {e₁ e₂ : BlockedIPEntry}
    (hu : uniqIps blocked) (h₁ : e₁ ∈ blocked) (h₂ : e₂ ∈ blocked)
    (hip : e₁.ip_address = e₂.ip_address) : e₁ = e₂ :=
  List.inj_on_of_nodup_map hu h₁ h₂ hip

theorem findEntry_eq_some_of_mem {blocked : List BlockedIPEntry} {ip : String}
    {e : BlockedIPEntry} (hu : uniqIps blocked) (he : e ∈ blocked)
    (hip : e.ip_address = ip) : findEntry blocked ip = some e := by
  cases hfind : findEntry blocked ip with
  | none => exact absurd hip (findEntry_eq_none.mp hfind e he)
  | some e₂ =>
    obtain ⟨hm₂, hip₂⟩ := findEntry_mem hfind
    rw [uniq_eq_of_ip hu hm₂ he (hip₂.trans hip.symm)]

theorem findEntry_filter_ne {blocked : List BlockedIPEntry} {ip : String} :
    findEntry (blocked.filter (fun x => x.ip_address != ip)) ip = none := by
  rw [findEntry_eq_none]
  intro e he
  have := (List.mem_filter.mp he).2
  simpa using this

/-- `is_blocked` answers `true` exactly when a non-expired entry for the ip
exists (under per-ip uniqueness). -/
theorem is_blocked_fst_iff {blocked : List BlockedIPEntry} {ip : String} {now : Instant}
    (hu : uniqIps blocked) :
    (is_blocked blocked ip now).1 = true ↔
      ∃ e ∈ blocked, e.ip_address = ip ∧ is_expired e now = false := by
  cases hfind : findEntry blocked ip with
  | none =>
    simp only [is_blocked, hfind]
    constructor
    · intro h; cases h
    · rintro ⟨e, he, hip, _⟩
      exact absurd hip (findEntry_eq_none.mp hfind e he)
  | some e =>
    obtain ⟨hmem, hip⟩ := findEntry_mem hfind
    cases hexp : is_expired e now with
    | true =>
      simp only [is_blocked, hfind, hexp, if_true]
      constructor
      · intro h; cases h
      · rintro ⟨e₂, he₂, hip₂, hexp₂⟩
        have heq : e = e₂ := uniq_eq_of_ip hu hmem he₂ (hip.trans hip₂.symm)
        rw [heq, hexp₂] at hexp
        cases hexp
    | false =>
      simp only [is_blocked, hfind, hexp]
      simp only [Bool.false_eq_true, if_false]
      exact ⟨fun _ => ⟨e, hmem, hip, hexp⟩, fun _ => trivial⟩

theorem is_blocked_fst_eq_hasActiveEntry {blocked : List BlockedIPEntry} {ip : String}
    {now : Instant} (hu : uniqIps blocked) :
    (is_blocked blocked ip now).1 = hasActiveEntry blocked ip now := by
  cases h : hasActiveEntry blocked ip now
  · cases h' : (is_blocked blocked ip now).1
    · rfl
    · obtain ⟨e, he, hip, hexp⟩ := (is_blocked_fst_iff hu).mp h'
      have hcontra : hasActiveEntry blocked ip now = true := by
        unfold hasActiveEntry
        rw [List.any_eq_true]
        exact ⟨e, he, by simp [hip, hexp]⟩
      rw [h] at hcontra; cases hcontra
  · unfold hasActiveEntry at h
    rw [List.any_eq_true] at h
    obtain ⟨e, he, hp⟩ := h
    rw [Bool.and_eq_true] at hp
    have hip : e.ip_address = ip := by simpa using hp.1
    have hexp : is_expired e now = false := by
      have := hp.2
      cases hx : is_expired e now
      · rfl
      · rw [hx] at this; cases this
    exact (is_blocked_fst_iff hu).mpr ⟨e, he, hip, hexp⟩

/-- When `is_blocked` answers `false`, the returned table has no entry left
for the ip (either there was none, or the expired one was reaped). -/
theorem is_blocked_false_no_entry {blocked : List BlockedIPEntry} {ip : String}
    {now : Instant} (h : (is_blocked blocked ip now).1 = false) :
    findEntry (is_blocked blocked ip now).2 ip = none := by
  cases hfind : findEntry blocked ip with
  | none => simp [is_blocked, hfind]
  | some e =>
    cases hexp : is_expired e now with
    | true =>
      simp only [is_blocked, hfind, hexp, if_true]
      exact findEntry_filter_ne
    | false =>
      simp only [is_blocked, hfind, hexp, Bool.false_eq_true, if_false] at h
      cases h

/-- `is_blocked` answering `true` leaves the table untouched. -/
theorem is_blocked_true_snd {blocked : List BlockedIPEntry} {ip : String} {now : Instant}
    (h : (is_blocked blocked ip now).1 = true) :
    (is_blocked blocked ip now).2 = blocked := by
  cases hfind : findEntry blocked ip with
  | none => simp only [is_blocked, hfind] at h; cases h
  | some e =>
    cases hexp : is_expired e now with
    | true => simp only [is_blocked, hfind, hexp, if_true] at h; cases h
    | false => simp only [is_blocked, hfind, hexp, Bool.false_eq_true, if_false]

/-- Entries of other ips survive `is_blocked` (membership, both ways). -/
theorem is_blocked_snd_mem_iff {blocked : List BlockedIPEntry} {ip : String} {now : Instant}
    {e : BlockedIPEntry} (hne : e.ip_address ≠ ip) :
    e ∈ (is_blocked blocked ip now).2 ↔ e ∈ blocked := by
  cases hfind : findEntry blocked ip with
  | none => simp [is_blocked, hfind]
  | some f =>
    cases hexp : is_expired f now with
    | true =>
      simp only [is_blocked, hfind, hexp, if_true]
      rw [List.mem_filter]
      constructor
      · exact fun h => h.1
      · exact fun h => ⟨h, by simpa using hne⟩
    | false => simp [is_blocked, hfind, hexp]

/-! ## Lemmas about `block_ip` and `unblock_ip` -/

theorem findEntry_map_update {blocked : List BlockedIPEntry} {ip : String}
    {e e' : BlockedIPEntry} (hip' : e'.ip_address = ip)
    (hfind : findEntry blocked ip = some e) :
    findEntry (blocked.map (fun x => if x.ip_address == ip then e' else x)) ip = some e' := by
  induction blocked with
  | nil => cases hfind
  | cons x xs ih =>
    cases hx : (x.ip_address == ip) with
    | true =>
      simp only [List.map_cons, hx, if_true]
      unfold findEntry
      rw [List.find?_cons_of_pos]
      simp [hip']
    | false =>
      have hfind' : findEntry xs ip = some e := by
        unfold findEntry at hfind
        rwa [List.find?_cons_of_neg _ (by simp [hx])] at hfind
      simp only [List.map_cons, hx, Bool.false_eq_true, if_false]
      unfold findEntry at *
      rw [List.find?_cons_of_neg _ (by simp [hx])]
      exact ih hfind'

theorem map_update_ips (blocked : List BlockedIPEntry) (ip : String)
    (e' : BlockedIPEntry) (hip' : e'.ip_address = ip) :
    (blocked.map (fun x => if x.ip_address == ip then e' else x)).map
        (fun e => e.ip_address) = blocked.map (fun e => e.ip_address) := by
  rw [List.map_map]
  apply List.map_congr_left
  intro x _
  cases h : (x.ip_address == ip)
  · simp [Function.comp, h]
  · have hx : x.ip_address = ip := by simpa using h
    simp [Function.comp, h, hip', hx]

theorem uniqIps_sublist {l₁ l₂ : List BlockedIPEntry} (hs : List.Sublist l₁ l₂)
    (hu : uniqIps l₂) : uniqIps l₁ :=
  List.Nodup.sublist (hs.map _) hu

theorem uniqIps_is_blocked {blocked : List BlockedIPEntry} {ip : String} {now : Instant}
    (hu : uniqIps blocked) : uniqIps (is_blocked blocked ip now).2 := by
  cases hfind : findEntry blocked ip with
  | none => simpa [is_blocked, hfind] using hu
  | some e =>
    cases hexp : is_expired e now with
    | true =>
      simp only [is_blocked, hfind, hexp, if_true]
      exact uniqIps_sublist (List.filter_sublist blocked) hu
    | false => simpa [is_blocked, hfind, hexp] using hu

theorem uniqIps_block_ip {blocked : List BlockedIPEntry} {ip reason blocked_by : String}
    {d : Option Nat} {now : Instant} (hu : uniqIps blocked) :
    uniqIps (block_ip blocked ip reason blocked_by d now).1 := by
  cases hfind : findEntry blocked ip with
  | none =>
    simp only [block_ip, hfind]
    unfold uniqIps
    rw [List.map_append, List.nodup_append]
    refine ⟨hu, List.nodup_singleton _, ?_⟩
    intro a ha hb
    simp only [List.map_cons, List.map_nil, List.mem_singleton] at hb
    obtain ⟨x, hx, hxa⟩ := List.mem_map.mp ha
    exact (findEntry_eq_none.mp hfind x hx) (by rw [hxa, hb])
  | some e =>
    simp only [block_ip, hfind]
    unfold uniqIps
    rw [map_update_ips]
    · exact hu
    · exact (findEntry_mem hfind).2

theorem uniqIps_unblock_ip {blocked : List BlockedIPEntry} {ip : String}
    (hu : uniqIps blocked) : uniqIps (unblock_ip blocked ip).1 := by
  cases hfind : findEntry blocked ip with
  | none => simpa [unblock_ip, hfind] using hu
  | some e =>
    simp only [unblock_ip, hfind]
    exact uniqIps_sublist (List.filter_sublist blocked) hu

/-- In the create case, `block_ip` appends the freshly created row. -/
theorem block_ip_not_found {blocked : List BlockedIPEntry} {ip reason blocked_by : String}
    {d : Option Nat} {now : Instant} (hfind : findEntry blocked ip = none) :
    block_ip blocked ip reason blocked_by d now =
      (blocked ++ [{ ip_address := ip, reason := reason, blocked_at := now,
                     blocked_by := blocked_by, expires_at := computeExpiry d now }],
       { ip_address := ip, reason := reason, blocked_at := now,
         blocked_by := blocked_by, expires_at := computeExpiry d now }) := by
  simp [block_ip, hfind]

/-- In the overwrite case, `block_ip` merges onto the found entry. -/
theorem block_ip_found {blocked : List BlockedIPEntry} {ip reason blocked_by : String}
    {d : Option Nat} {now : Instant} {e : BlockedIPEntry}
    (hfind : findEntry blocked ip = some e) :
    block_ip blocked ip reason blocked_by d now =
      (blocked.map (fun x => if x.ip_address == ip then
          { e with reason := if reason = "" then e.reason else reason,
                   blocked_by := if blocked_by = "" then e.blocked_by else blocked_by,
                   expires_at := computeExpiry d now } else x),
       { e with reason := if reason = "" then e.reason else reason,
                blocked_by := if blocked_by = "" then e.blocked_by else blocked_by,
                expires_at := computeExpiry d now }) := by
  simp [block_ip, hfind]

/-! ## Uniqueness preservation through the auto-blocker -/

theorem uniqIps_autoBlockStep (now : Instant) (acc : AutoBlockAcc) (ip : String)
    (hu : uniqIps acc.blocked) : uniqIps (autoBlockStep now acc ip).blocked := by
  unfold autoBlockStep
  cases hb : (is_blocked acc.blocked ip now).1
  · simp only [hb, Bool.false_eq_true, if_false]
    exact uniqIps_block_ip (uniqIps_is_blocked hu)
  · simp only [hb, if_true]
    exact uniqIps_is_blocked hu

theorem uniqIps_autoBlockFold (now : Instant) (sel : List String) (acc : AutoBlockAcc)
    (hu : uniqIps acc.blocked) :
    uniqIps (sel.foldl (autoBlockStep now) acc).blocked := by
  induction sel generalizing acc with
  | nil => exact hu
  | cons x xs ih =>
    exact ih _ (uniqIps_autoBlockStep now acc x hu)

/-! ## The auto-blocker loop -/

theorem bool_eq_of_true_iff {a b : Bool} (h : a = true ↔ b = true) : a = b := by
  cases a <;> cases b <;> simp_all

theorem hasActiveEntry_congr {l₁ l₂ : List BlockedIPEntry} {ip y : String} {now : Instant}
    (hmem : ∀ e : BlockedIPEntry, e.ip_address ≠ ip → (e ∈ l₁ ↔ e ∈ l₂))
    (hne : y ≠ ip) : hasActiveEntry l₁ y now = hasActiveEntry l₂ y now := by
  apply bool_eq_of_true_iff
  unfold hasActiveEntry
  rw [List.any_eq_true, List.any_eq_true]
  constructor
  · rintro ⟨e, he, hp⟩
    have hey : e.ip_address = y := by
      rw [Bool.and_eq_true] at hp
      simpa using hp.1
    exact ⟨e, (hmem e (by rw [hey]; exact hne)).mp he, hp⟩
  · rintro ⟨e, he, hp⟩
    have hey : e.ip_address = y := by
      rw [Bool.and_eq_true] at hp
      simpa using hp.1
    exact ⟨e, (hmem e (by rw [hey]; exact hne)).mpr he, hp⟩

theorem autoBlockStep_count (now : Instant) (acc : AutoBlockAcc) (ip : String)
    (hu : uniqIps acc.blocked) :
    (autoBlockStep now acc ip).count =
      if hasActiveEntry acc.blocked ip now = true then acc.count else acc.count + 1 := by
  simp only [autoBlockStep]
  rw [← is_blocked_fst_eq_hasActiveEntry hu]
  cases hb : (is_blocked acc.blocked ip now).1 <;> simp [hb]

theorem autoBlockStep_blocked_mem_iff (now : Instant) (acc : AutoBlockAcc) (ip : String)
    {e : BlockedIPEntry} (hne : e.ip_address ≠ ip) :
    e ∈ (autoBlockStep now acc ip).blocked ↔ e ∈ acc.blocked := by
  simp only [autoBlockStep]
  cases hb : (is_blocked acc.blocked ip now).1
  · simp only [hb, Bool.false_eq_true, if_false]
    have hnone := is_blocked_false_no_entry hb
    rw [block_ip_not_found hnone]
    simp only [List.mem_append, List.mem_singleton]
    constructor
    · rintro (h | h)
      · exact (is_blocked_snd_mem_iff hne).mp h
      · exfalso; apply hne; rw [h]
    · intro h
      exact Or.inl ((is_blocked_snd_mem_iff hne).mpr h)
  · simp only [hb, if_true]
    exact is_blocked_snd_mem_iff hne

theorem autoBlockStep_hasActive (now : Instant) (acc : AutoBlockAcc) (ip : String)
    {y : String} (hne : y ≠ ip) :
    hasActiveEntry (autoBlockStep now acc ip).blocked y now
      = hasActiveEntry acc.blocked y now :=
  hasActiveEntry_congr (fun _ he => autoBlockStep_blocked_mem_iff now acc ip he) hne

theorem resolveFlags_pres {flags : List SuspiciousIPEntry} {ip z : String}
    (hz : ∀ f ∈ flags, f.ip_address = z → f.is_resolved = true) :
    ∀ f ∈ resolveFlags flags ip, f.ip_address = z → f.is_resolved = true := by
  intro f hf hfz
  obtain ⟨g, hg, hgf⟩ := List.mem_map.mp hf
  cases hc : (g.ip_address == ip && !g.is_resolved) with
  | false =>
    have hfg : f = g := by rw [← hgf]; simp [hc]
    rw [hfg] at hfz ⊢
    exact hz g hg hfz
  | true => rw [← hgf]; simp [hc]

theorem resolveFlags_resolves {flags : List SuspiciousIPEntry} {ip : String} :
    ∀ f ∈ resolveFlags flags ip, f.ip_address = ip → f.is_resolved = true := by
  intro f hf hfip
  obtain ⟨g, hg, hgf⟩ := List.mem_map.mp hf
  cases hc : (g.ip_address == ip && !g.is_resolved) with
  | true => rw [← hgf]; simp [hc]
  | false =>
    have hfg : f = g := by rw [← hgf]; simp [hc]
    rw [hfg] at hfip ⊢
    cases hr : g.is_resolved
    · exfalso
      have hcontra : (g.ip_address == ip && !g.is_resolved) = true := by simp [hfip, hr]
      rw [hc] at hcontra
      cases hcontra
    · rfl

theorem autoBlockStep_flags_pres (now : Instant) (acc : AutoBlockAcc) (ip z : String)
    (hz : ∀ f ∈ acc.flags, f.ip_address = z → f.is_resolved = true) :
    ∀ f ∈ (autoBlockStep now acc ip).flags, f.ip_address = z → f.is_resolved = true := by
  simp only [autoBlockStep]
  cases hb : (is_blocked acc.blocked ip now).1
  · simp only [hb, Bool.false_eq_true, if_false]
    exact resolveFlags_pres hz
  · simp only [hb, if_true]
    exact hz

theorem autoBlockStep_flags_resolves (now : Instant) (acc : AutoBlockAcc) (ip : String)
    (hu : uniqIps acc.blocked) (hact : hasActiveEntry acc.blocked ip now = false) :
    ∀ f ∈ (autoBlockStep now acc ip).flags, f.ip_address = ip → f.is_resolved = true := by
  have hb : (is_blocked acc.blocked ip now).1 = false := by
    rw [is_blocked_fst_eq_hasActiveEntry hu, hact]
  simp only [autoBlockStep, hb, Bool.false_eq_true, if_false]
  exact resolveFlags_resolves

theorem autoBlockFold_count (now : Instant) (sel : List String) (acc : AutoBlockAcc)
    (hu : uniqIps acc.blocked) (hnd : sel.Nodup) :
    (sel.foldl (autoBlockStep now) acc).count =
      acc.count + (sel.filter (fun ip => !hasActiveEntry acc.blocked ip now)).length := by
  induction sel generalizing acc with
  | nil => simp
  | cons x xs ih =>
    have hnd' := List.nodup_cons.mp hnd
    rw [List.foldl_cons,
      ih (autoBlockStep now acc x) (uniqIps_autoBlockStep now acc x hu) hnd'.2]
    have hfilter : xs.filter (fun ip => !hasActiveEntry (autoBlockStep now acc x).blocked ip now)
        = xs.filter (fun ip => !hasActiveEntry acc.blocked ip now) := by
      apply List.filter_congr
      intro y hy
      rw [autoBlockStep_hasActive now acc x (fun h => hnd'.1 (h ▸ hy))]
    rw [hfilter, autoBlockStep_count now acc x hu, List.filter_cons]
    cases hb : hasActiveEntry acc.blocked x now
    · simp only [hb, Bool.not_false, Bool.false_eq_true, if_false, if_true, List.length_cons]
      omega
    · simp only [hb, Bool.not_true, Bool.false_eq_true, if_false, if_true]

theorem autoBlockFold_mem (now : Instant) (sel : List String) (acc : AutoBlockAcc)
    {e : BlockedIPEntry} (he : e ∈ acc.blocked) (hnotin : ∀ y ∈ sel, e.ip_address ≠ y) :
    e ∈ (sel.foldl (autoBlockStep now) acc).blocked := by
  induction sel generalizing acc with
  | nil => exact he
  | cons x xs ih =>
    rw [List.foldl_cons]
    apply ih
    · exact (autoBlockStep_blocked_mem_iff now acc x
        (hnotin x (List.mem_cons_self x xs))).mpr he
    · intro y hy
      exact hnotin y (List.mem_cons_of_mem x hy)

theorem autoBlockFold_flags_pres (now : Instant) (sel : List String) (acc : AutoBlockAcc)
    (z : String) (hz : ∀ f ∈ acc.flags, f.ip_address = z → f.is_resolved = true) :
    ∀ f ∈ (sel.foldl (autoBlockStep now) acc).flags,
      f.ip_address = z → f.is_resolved = true := by
  induction sel generalizing acc with
  | nil => exact hz
  | cons x xs ih =>
    rw [List.foldl_cons]
    exact ih _ (autoBlockStep_flags_pres now acc x z hz)

theorem autoBlockFold_post (now : Instant) (sel : List String) (acc : AutoBlockAcc)
    (hu : uniqIps acc.blocked) (hnd : sel.Nodup) :
    ∀ x ∈ sel, hasActiveEntry acc.blocked x now = false →
      (∃ e ∈ (sel.foldl (autoBlockStep now) acc).blocked,
         e.ip_address = x ∧ e.reason = autoBlockReason ∧ e.blocked_by = "System" ∧
         e.blocked_at = now ∧ e.expires_at = some (now + 3600 * 24)) ∧
      (∀ f ∈ (sel.foldl (autoBlockStep now) acc).flags,
         f.ip_address = x → f.is_resolved = true) := by
  induction sel generalizing acc with
  | nil => intro x hx; cases hx
  | cons hd tl ih =>
    intro x hx hact
    have hnd' := List.nodup_cons.mp hnd
    rcases List.mem_cons.mp hx with rfl | hmem
    · have hb : (is_blocked acc.blocked x now).1 = false := by
        rw [is_blocked_fst_eq_hasActiveEntry hu, hact]
      have hnone := is_blocked_false_no_entry hb
      have hstep : (autoBlockStep now acc x).blocked =
          (is_blocked acc.blocked x now).2 ++ [autoEntry x now] := by
        simp only [autoBlockStep, hb, Bool.false_eq_true, if_false]
        rw [block_ip_not_found hnone]
        rfl
      have hmemStep : autoEntry x now ∈ (autoBlockStep now acc x).blocked := by
        rw [hstep]
        exact List.mem_append_right _ (List.mem_singleton_self _)
      have hneTl : ∀ y ∈ tl, (autoEntry x now).ip_address ≠ y := by
        intro y hy h
        apply hnd'.1
        have hxy : x = y := h
        rw [hxy]
        exact hy
      rw [List.foldl_cons]
      constructor
      · exact ⟨_, autoBlockFold_mem now tl (autoBlockStep now acc x) hmemStep hneTl,
          rfl, rfl, rfl, rfl, by simp [autoEntry, computeExpiry]⟩
      · apply autoBlockFold_flags_pres
        exact autoBlockStep_flags_resolves now acc x hu hact
    · rw [List.foldl_cons]
      have hne : x ≠ hd := fun h => hnd'.1 (h ▸ hmem)
      have hact' : hasActiveEntry (autoBlockStep now acc hd).blocked x now = false := by
        rw [autoBlockStep_hasActive now acc hd hne]
        exact hact
      exact ih (autoBlockStep now acc hd) (uniqIps_autoBlockStep now acc hd hu)
        hnd'.2 x hmem hact'

theorem selectedIps_mem_iff (flags : List SuspiciousIPEntry) (ip : String) :
    ip ∈ selectedIps flags ↔ 3 ≤ unresolvedCount flags ip := by
  unfold selectedIps
  rw [List.mem_filter]
  constructor
  · rintro ⟨_, h⟩
    simpa using h
  · intro h
    refine ⟨?_, by simpa using h⟩
    unfold flaggedIps
    rw [List.mem_dedup]
    unfold unresolvedCount at h
    rcases hl : flags.filter (fun f => !f.is_resolved && f.ip_address == ip) with _ | ⟨f, rest⟩
    · rw [hl] at h; simp at h
    · have hf : f ∈ flags.filter (fun f => !f.is_resolved && f.ip_address == ip) := by
        rw [hl]
        exact List.mem_cons_self f rest
      have hfm := List.mem_filter.mp hf
      have hfp := hfm.2
      rw [Bool.and_eq_true] at hfp
      apply List.mem_map.mpr
      refine ⟨f, ?_, by simpa using hfp.2⟩
      rw [List.mem_filter]
      exact ⟨hfm.1, hfp.1⟩

theorem selectedIps_nodup (flags : List SuspiciousIPEntry) : (selectedIps flags).Nodup := by
  unfold selectedIps flaggedIps
  exact List.Nodup.filter _ (List.nodup_dedup _)

/-! ## Claim theorems -/

/-- Claim C2: for an ip that already has an entry, `block_ip` overwrites it
with merge semantics: reason and issuer are replaced only when the new values
are non-empty (otherwise kept), while the expiry is unconditionally replaced
with now plus the new duration (or cleared to permanent when the duration is
absent); in particular, re-blocking a permanent entry with a 1-hour duration
yields an entry expiring exactly at now + 1h. -/
theorem c2_block_overwrite_merge (blocked : List BlockedIPEntry)
    (ip reason blocked_by : String) (d : Option Nat) (now : Instant)
    (e : BlockedIPEntry) (hfind : findEntry blocked ip = some e) :
    let res := block_ip blocked ip reason blocked_by d now
    findEntry res.1 ip = some res.2 ∧
    (reason ≠ "" → res.2.reason = reason) ∧
    (reason = "" → res.2.reason = e.reason) ∧
    (blocked_by ≠ "" → res.2.blocked_by = blocked_by) ∧
    (blocked_by = "" → res.2.blocked_by = e.blocked_by) ∧
    (∀ dh : Nat, d = some dh → dh ≠ 0 →
      res.2.expires_at = some (now + 3600 * (dh : Int))) ∧
    (d = none → res.2.expires_at = none) ∧
    (e.expires_at = none → d = some 1 → res.2.expires_at = some (now + 3600)) := by
  intro res
  have hip : e.ip_address = ip := (findEntry_mem hfind).2
  have hres2 : res.2 =
      { e with reason := if reason = "" then e.reason else reason,
               blocked_by := if blocked_by = "" then e.blocked_by else blocked_by,
               expires_at := computeExpiry d now } := by
    show (block_ip blocked ip reason blocked_by d now).2 = _
    rw [block_ip_found hfind]
  have h1 : findEntry res.1 ip = some res.2 := by
    show findEntry (block_ip blocked ip reason blocked_by d now).1 ip =
      some (block_ip blocked ip reason blocked_by d now).2
    rw [block_ip_found hfind]
    exact findEntry_map_update hip hfind
  refine ⟨h1, ?_, ?_, ?_, ?_, ?_, ?_, ?_⟩
  · intro hr; rw [hres2]; simp [hr]
  · intro hr; rw [hres2]; simp [hr]
  · intro hb; rw [hres2]; simp [hb]
  · intro hb; rw [hres2]; simp [hb]
  · intro dh hd hdh; rw [hres2]; subst hd; simp [computeExpiry, hdh]
  · intro hd; rw [hres2]; subst hd; simp [computeExpiry]
  · intro _ hd; rw [hres2]; subst hd; simp [computeExpiry]

/-- Witness for C2: a permanent entry re-blocked with empty reason/issuer and
a 1-hour duration. -/
theorem c2_witness :
    findEntry [permEntry] "1.2.3.4" = some permEntry ∧
    (let res := block_ip [permEntry] "1.2.3.4" "" "" (some 1) 1000
     findEntry res.1 "1.2.3.4" = some res.2 ∧
     ("" ≠ "" → res.2.reason = "") ∧
     ("" = "" → res.2.reason = permEntry.reason) ∧
     ("" ≠ "" → res.2.blocked_by = "") ∧
     ("" = "" → res.2.blocked_by = permEntry.blocked_by) ∧
     (∀ dh : Nat, some 1 = some dh → dh ≠ 0 →
       res.2.expires_at = some (1000 + 3600 * (dh : Int))) ∧
     (some 1 = (none : Option Nat) → res.2.expires_at = none) ∧
     (permEntry.expires_at = none → some 1 = some 1 →
       res.2.expires_at = some (1000 + 3600))) :=
  ⟨by decide,
   c2_block_overwrite_merge [permEntry] "1.2.3.4" "" "" (some 1) 1000 permEntry (by decide)⟩

/-- Claim C10: re-blocking an existing entry leaves its creation instant
`blocked_at` (and its key) unchanged: the overwrite-with-merge only touches
reason, issuer and expiry. -/
theorem c10_block_preserves_blocked_at (blocked : List BlockedIPEntry)
    (ip reason blocked_by : String) (d : Option Nat) (now : Instant)
    (e : BlockedIPEntry) (hfind : findEntry blocked ip = some e) :
    let res := block_ip blocked ip reason blocked_by d now
    findEntry res.1 ip = some res.2 ∧
    res.2.blocked_at = e.blocked_at ∧
    res.2.ip_address = e.ip_address := by
  intro res
  have hip : e.ip_address = ip := (findEntry_mem hfind).2
  have h1 : findEntry res.1 ip = some res.2 := by
    show findEntry (block_ip blocked ip reason blocked_by d now).1 ip =
      some (block_ip blocked ip reason blocked_by d now).2
    rw [block_ip_found hfind]
    exact findEntry_map_update hip hfind
  refine ⟨h1, ?_, ?_⟩
  · show (block_ip blocked ip reason blocked_by d now).2.blocked_at = e.blocked_at
    rw [block_ip_found hfind]
  · show (block_ip blocked ip reason blocked_by d now).2.ip_address = e.ip_address
    rw [block_ip_found hfind]

/-- Witness for C10: the permanent entry keeps `blocked_at = 0` when
re-blocked by the auto-block parameters. -/
theorem c10_witness :
    findEntry [permEntry] "1.2.3.4" = some permEntry ∧
    (let res := block_ip [permEntry] "1.2.3.4" autoBlockReason "System" (some 24) 500
     findEntry res.1 "1.2.3.4" = some res.2 ∧
     res.2.blocked_at = permEntry.blocked_at ∧
     res.2.ip_address = permEntry.ip_address) :=
  ⟨by decide,
   c10_block_preserves_blocked_at [permEntry] "1.2.3.4" autoBlockReason "System"
     (some 24) 500 permEntry (by decide)⟩

/-- Claim C3: `is_blocked ip` answers true iff an entry for ip exists and is
not expired; and when the entry for ip is expired, the call answers false and
deletes the entry, so a subsequent lookup finds nothing. -/
theorem c3_is_blocked_spec (blocked : List BlockedIPEntry) (ip : String) (now : Instant)
    (hu : uniqIps blocked) :
    ((is_blocked blocked ip now).1 = true ↔
      ∃ e ∈ blocked, e.ip_address = ip ∧ is_expired e now = false) ∧
    (∀ e ∈ blocked, e.ip_address = ip → is_expired e now = true →
      (is_blocked blocked ip now).1 = false ∧
      findEntry (is_blocked blocked ip now).2 ip = none) := by
  refine ⟨is_blocked_fst_iff hu, ?_⟩
  intro e he hip hexp
  have hfind : findEntry blocked ip = some e := findEntry_eq_some_of_mem hu he hip
  have hfalse : (is_blocked blocked ip now).1 = false := by
    simp [is_blocked, hfind, hexp]
  exact ⟨hfalse, is_blocked_false_no_entry hfalse⟩

/-- Witness for C3: a registry holding only an entry expired at the query
instant. -/
theorem c3_witness :
    uniqIps [expiredEntry] ∧
    (((is_blocked [expiredEntry] "2.3.4.5" 100).1 = true ↔
      ∃ e ∈ [expiredEntry], e.ip_address = "2.3.4.5" ∧ is_expired e 100 = false) ∧
    (∀ e ∈ [expiredEntry], e.ip_address = "2.3.4.5" → is_expired e 100 = true →
      (is_blocked [expiredEntry] "2.3.4.5" 100).1 = false ∧
      findEntry (is_blocked [expiredEntry] "2.3.4.5" 100).2 "2.3.4.5" = none)) :=
  ⟨by decide, c3_is_blocked_spec [expiredEntry] "2.3.4.5" 100 (by decide)⟩

/-- Claim C7: under the per-ip uniqueness invariant, every write path of the
block registry — `block_ip`, `unblock_ip`, the lazy reap inside `is_blocked`,
and the auto-blocker run — preserves at most one entry per ip. -/
theorem c7_uniqueness_preserved (blocked : List BlockedIPEntry) (s : DBState)
    (ip reason blocked_by : String) (d : Option Nat) (now : Instant)
    (hu : uniqIps blocked) (hus : uniqIps s.blocked) :
    uniqIps (block_ip blocked ip reason blocked_by d now).1 ∧
    uniqIps (unblock_ip blocked ip).1 ∧
    uniqIps (is_blocked blocked ip now).2 ∧
    uniqIps (auto_block_suspicious_ips s now).1.blocked := by
  refine ⟨uniqIps_block_ip hu, uniqIps_unblock_ip hu, uniqIps_is_blocked hu, ?_⟩
  show uniqIps ((selectedIps s.flags).foldl (autoBlockStep now) ⟨s.blocked, s.flags, 0⟩).blocked
  exact uniqIps_autoBlockFold now _ _ hus

/-- Witness for C7 at the demo registry. -/
theorem c7_witness :
    uniqIps demoState.blocked ∧
    (uniqIps (block_ip demoState.blocked "1.2.3.4" "r" "Admin" (some 2) 100).1 ∧
     uniqIps (unblock_ip demoState.blocked "1.2.3.4").1 ∧
     uniqIps (is_blocked demoState.blocked "1.2.3.4" 100).2 ∧
     uniqIps (auto_block_suspicious_ips demoState 100).1.blocked) :=
  ⟨by decide,
   c7_uniqueness_preserved demoState.blocked demoState "1.2.3.4" "r" "Admin"
     (some 2) 100 (by decide) (by decide)⟩

/-- Claim C8 as stated is false on the code: the blocked count of
`ip_statistics` is an unfiltered row count, so a state whose only entry is
expired still reports one blocked ip instead of excluding it. -/
theorem c8_counterexample :
    (∀ e ∈ demoState.blocked, e.ip_address = "2.3.4.5" → is_expired e 100 = true) ∧
    (ip_statistics { demoState with blocked := [expiredEntry] }).blocked_ips = 1 ∧
    (ip_statistics { demoState with blocked := [expiredEntry] }).blocked_ips ≠
      (List.filter (fun e => !is_expired e 100) [expiredEntry]).length := by
  decide

/-- Claim C8 amended: only `is_blocked` treats an expired entry as absent
(reaping it); `ip_statistics` counts every entry including expired ones, and
`list_blocked_ips` still lists an expired entry, merely marking it
`is_active = false`. -/
theorem c8_read_paths_amended (s : DBState) (now : Instant) (e : BlockedIPEntry)
    (hu : uniqIps s.blocked) (he : e ∈ s.blocked) (hexp : is_expired e now = true) :
    (ip_statistics s).blocked_ips = s.blocked.length ∧
    (∃ v ∈ list_blocked_ips s now, v.ip_address = e.ip_address ∧ v.is_active = false) ∧
    (is_blocked s.blocked e.ip_address now).1 = false := by
  refine ⟨rfl, ?_, ?_⟩
  · refine ⟨_, List.mem_map_of_mem _ he, rfl, ?_⟩
    simp [hexp]
  · have hfind : findEntry s.blocked e.ip_address = some e :=
      findEntry_eq_some_of_mem hu he rfl
    simp [is_blocked, hfind, hexp]

/-- Witness for the amended C8 at the demo registry. -/
theorem c8_witness :
    (uniqIps demoState.blocked ∧ expiredEntry ∈ demoState.blocked ∧
      is_expired expiredEntry 100 = true) ∧
    ((ip_statistics demoState).blocked_ips = demoState.blocked.length ∧
     (∃ v ∈ list_blocked_ips demoState 100,
        v.ip_address = expiredEntry.ip_address ∧ v.is_active = false) ∧
     (is_blocked demoState.blocked expiredEntry.ip_address 100).1 = false) :=
  ⟨⟨by decide, by decide, by decide⟩,
   c8_read_paths_amended demoState 100 expiredEntry (by decide) (by decide) (by decide)⟩

/-- Claim C9: a block API call whose ip is missing, empty, or not a
well-formed IPv4/IPv6 address is answered with a client error and leaves the
state untouched — no entry is created or modified.  (The well-formedness
check itself is modelled from the spec, since the `GenericIPAddressField`
enforcement is framework code outside the repository.) -/
theorem c9_invalid_ip_rejected_before_write (s : DBState) (ipOpt : Option String)
    (reason issuer : String) (d : Option Nat) (now : Instant)
    (hbad : ipOpt = none ∨ ipOpt = some "" ∨
      ∃ ip, ipOpt = some ip ∧ isValidIp ip = false) :
    (block_ip_api s ipOpt reason issuer d now).1 = s ∧
    ((block_ip_api s ipOpt reason issuer d now).2).isError = true := by
  rcases hbad with rfl | rfl | ⟨ip, rfl, hval⟩
  · exact ⟨rfl, rfl⟩
  · simp [block_ip_api, ApiResult.isError]
  · by_cases hemp : ip = ""
    · subst hemp; simp [block_ip_api, ApiResult.isError]
    · simp [block_ip_api, hemp, hval, ApiResult.isError]

/-- Witness for C9: the malformed address string `999.1.2.3`. -/
theorem c9_witness :
    ((some "999.1.2.3" = (none : Option String)) ∨ (some "999.1.2.3" = some "") ∨
      ∃ ip, some "999.1.2.3" = some ip ∧ isValidIp ip = false) ∧
    ((block_ip_api demoState (some "999.1.2.3") "abuse" "API" none 0).1 = demoState ∧
     ((block_ip_api demoState (some "999.1.2.3") "abuse" "API" none 0).2).isError = true) :=
  ⟨Or.inr (Or.inr ⟨"999.1.2.3", rfl, by decide⟩),
   c9_invalid_ip_rejected_before_write demoState (some "999.1.2.3") "abuse" "API" none 0
     (Or.inr (Or.inr ⟨"999.1.2.3", rfl, by decide⟩))⟩

/-- Claim C6: the auto-blocker selects exactly the ips with at least 3
unresolved flags (counting flags, not summing request counts); its return
value counts exactly the selected ips that were not actively blocked; and
each such ip ends up with an entry whose reason, issuer and 24-hour expiry
are the fixed automatic-block values. -/
theorem c6_auto_block_spec (s : DBState) (now : Instant) (hu : uniqIps s.blocked) :
    (∀ ip, ip ∈ selectedIps s.flags ↔ 3 ≤ unresolvedCount s.flags ip) ∧
    (auto_block_suspicious_ips s now).2 =
      ((selectedIps s.flags).filter (fun ip => !hasActiveEntry s.blocked ip now)).length ∧
    (∀ ip ∈ selectedIps s.flags, hasActiveEntry s.blocked ip now = false →
      ∃ e ∈ (auto_block_suspicious_ips s now).1.blocked,
        e.ip_address = ip ∧ e.reason = autoBlockReason ∧ e.blocked_by = "System" ∧
        e.expires_at = some (now + 3600 * 24)) := by
  refine ⟨fun ip => selectedIps_mem_iff s.flags ip, ?_, ?_⟩
  · show ((selectedIps s.flags).foldl (autoBlockStep now) ⟨s.blocked, s.flags, 0⟩).count = _
    rw [autoBlockFold_count now _ _ hu (selectedIps_nodup s.flags)]
    simp
  · intro ip hip hact
    have hpost := (autoBlockFold_post now (selectedIps s.flags) ⟨s.blocked, s.flags, 0⟩
      hu (selectedIps_nodup s.flags) ip hip hact).1
    obtain ⟨e, he, h1, h2, h3, _, h5⟩ := hpost
    exact ⟨e, he, h1, h2, h3, h5⟩

/-- Witness for C6: three unresolved flags on an unblocked ip. -/
theorem c6_witness :
    uniqIps c1StateU.blocked ∧
    ((∀ ip, ip ∈ selectedIps c1StateU.flags ↔ 3 ≤ unresolvedCount c1StateU.flags ip) ∧
     (auto_block_suspicious_ips c1StateU 1000).2 =
       ((selectedIps c1StateU.flags).filter
         (fun ip => !hasActiveEntry c1StateU.blocked ip 1000)).length ∧
     (∀ ip ∈ selectedIps c1StateU.flags, hasActiveEntry c1StateU.blocked ip 1000 = false →
       ∃ e ∈ (auto_block_suspicious_ips c1StateU 1000).1.blocked,
         e.ip_address = ip ∧ e.reason = autoBlockReason ∧ e.blocked_by = "System" ∧
         e.expires_at = some (1000 + 3600 * 24))) :=
  ⟨by decide, c6_auto_block_spec c1StateU 1000 (by decide)⟩

/-- Claim C1 as stated is false on the code: for an ip selected by the
auto-blocker that is already blocked, the resolution update is skipped, so
its unresolved flags survive the run (the `update` sits inside the
`if not is_blocked` branch). -/
theorem c1_counterexample :
    "9.9.9.9" ∈ selectedIps c1State.flags ∧
    (is_blocked c1State.blocked "9.9.9.9" 1000).1 = true ∧
    ∃ f ∈ (auto_block_suspicious_ips c1State 1000).1.flags,
      f.ip_address = "9.9.9.9" ∧ f.is_resolved = false := by
  decide

/-- Claim C1 amended: resolution happens only for a selected ip that was not
already actively blocked (the run then creates its entry and marks every one
of the ip's unresolved flags resolved); for an already-blocked selected ip
the flags are left untouched. -/
theorem c1_flags_resolved_when_newly_blocked (s : DBState) (now : Instant) (ip : String)
    (hu : uniqIps s.blocked) (hsel : ip ∈ selectedIps s.flags)
    (hact : hasActiveEntry s.blocked ip now = false) :
    ∀ f ∈ (auto_block_suspicious_ips s now).1.flags,
      f.ip_address = ip → f.is_resolved = true := by
  have hpost := (autoBlockFold_post now (selectedIps s.flags) ⟨s.blocked, s.flags, 0⟩
    hu (selectedIps_nodup s.flags) ip hsel hact).2
  exact hpost

/-- Witness for the amended C1: the three unresolved flags of the unblocked
ip are all resolved after the run. -/
theorem c1_witness :
    (uniqIps c1StateU.blocked ∧ "9.9.9.9" ∈ selectedIps c1StateU.flags ∧
      hasActiveEntry c1StateU.blocked "9.9.9.9" 1000 = false) ∧
    (∀ f ∈ (auto_block_suspicious_ips c1StateU 1000).1.flags,
      f.ip_address = "9.9.9.9" → f.is_resolved = true) :=
  ⟨⟨by decide, by decide, by decide⟩,
   c1_flags_resolved_when_newly_blocked c1StateU 1000 "9.9.9.9"
     (by decide) (by decide) (by decide)⟩

/-! ## Character-level facts about the scanner's reason strings -/

theorem digitChar_isDigit {n : Nat} (h : n < 10) : (Nat.digitChar n).isDigit = true := by
  interval_cases n <;> decide

theorem toDigitsCore_isDigit (fuel : Nat) : ∀ (n : Nat) (ds : List Char),
    (∀ c ∈ ds, c.isDigit = true) →
    ∀ c ∈ Nat.toDigitsCore 10 fuel n ds, c.isDigit = true := by
  induction fuel with
  | zero =>
    intro n ds hds c hc
    exact hds c (by simpa [Nat.toDigitsCore] using hc)
  | succ f ih =>
    intro n ds hds c hc
    simp only [Nat.toDigitsCore] at hc
    by_cases hz : n / 10 = 0
    · rw [if_pos hz] at hc
      rcases List.mem_cons.mp hc with rfl | hmem
      · exact digitChar_isDigit (Nat.mod_lt _ (by norm_num))
      · exact hds c hmem
    · rw [if_neg hz] at hc
      refine ih (n / 10) _ ?_ c hc
      intro c' hc'
      rcases List.mem_cons.mp hc' with rfl | hmem
      · exact digitChar_isDigit (Nat.mod_lt _ (by norm_num))
      · exact hds c' hmem

theorem repr_all_isDigit (n : Nat) : ∀ c ∈ (Nat.repr n).data, c.isDigit = true := by
  intro c hc
  exact toDigitsCore_isDigit (n + 1) n [] (by intro c' h; cases h) c hc

theorem containsSubstr_false_of_missing_char (c : Char) {hay needle : String}
    (hc : c ∈ needle.data) (hh : c ∉ hay.data) : containsSubstr hay needle = false := by
  unfold containsSubstr
  rw [decide_eq_false_iff_not]
  intro hinf
  exact hh (hinf.subset hc)

theorem containsSubstr_false_of_count (c : Char) {hay needle : String}
    (h : hay.data.count c < needle.data.count c) : containsSubstr hay needle = false := by
  unfold containsSubstr
  rw [decide_eq_false_iff_not]
  intro hinf
  have hle := List.Sublist.count_le hinf.sublist c
  omega

theorem sensReason_contains (p : String) (n : Nat) :
    containsSubstr (sensReason p n) p = true := by
  unfold containsSubstr sensReason
  rw [decide_eq_true_eq]
  refine ⟨"Multiple attempts to ".data,
    (": " ++ Nat.repr n ++ " times in last hour").data, ?_⟩
  simp [String.data_append, List.append_assoc]

theorem mem_sensReason {p : String} {n : Nat} {c : Char} (hc : c ∈ (sensReason p n).data) :
    c ∈ "Multiple attempts to ".data ∨ c ∈ p.data ∨ c ∈ ": ".data ∨
      c ∈ (Nat.repr n).data ∨ c ∈ " times in last hour".data := by
  unfold sensReason at hc
  simp only [String.data_append, List.mem_append] at hc
  tauto

theorem mem_volumeReason {n : Nat} {c : Char} (hc : c ∈ (volumeReason n).data) :
    c ∈ "High request volume: ".data ∨ c ∈ (Nat.repr n).data ∨
      c ∈ " requests in last hour".data := by
  unfold volumeReason at hc
  simp only [String.data_append, List.mem_append] at hc
  tauto

theorem not_mem_sensReason (c : Char) {p : String} {n : Nat}
    (h1 : c ∉ "Multiple attempts to ".data) (h2 : c ∉ p.data) (h3 : c ∉ ": ".data)
    (h4 : c.isDigit = false) (h5 : c ∉ " times in last hour".data) :
    c ∉ (sensReason p n).data := by
  intro hc
  rcases mem_sensReason hc with h | h | h | h | h
  · exact h1 h
  · exact h2 h
  · exact h3 h
  · rw [repr_all_isDigit n c h] at h4; cases h4
  · exact h5 h

theorem not_mem_volumeReason (c : Char) {n : Nat}
    (h1 : c ∉ "High request volume: ".data) (h4 : c.isDigit = false)
    (h5 : c ∉ " requests in last hour".data) : c ∉ (volumeReason n).data := by
  intro hc
  rcases mem_volumeReason hc with h | h | h
  · exact h1 h
  · rw [repr_all_isDigit n c h] at h4; cases h4
  · exact h5 h

theorem repr_count_eq_zero (c : Char) (n : Nat) (h : c.isDigit = false) :
    (Nat.repr n).data.count c = 0 := by
  rw [List.count_eq_zero]
  intro hmem
  rw [repr_all_isDigit n c hmem] at h
  cases h

theorem volumeReason_not_contains_path {p : String} {n : Nat} (hp : p ∈ sensitivePaths) :
    containsSubstr (volumeReason n) p = false := by
  apply containsSubstr_false_of_missing_char '/'
  · fin_cases hp <;> decide
  · exact not_mem_volumeReason '/' (by decide) (by decide) (by decide)

theorem sensReason_not_contains_high {p' : String} {n : Nat} (hp' : p' ∈ sensitivePaths) :
    containsSubstr (sensReason p' n) "High request volume" = false := by
  apply containsSubstr_false_of_missing_char 'H'
  · decide
  · refine not_mem_sensReason 'H' (by decide) ?_ (by decide) (by decide) (by decide)
    fin_cases hp' <;> decide

theorem sensReason_not_contains_other {p' p : String} (n : Nat)
    (hp' : p' ∈ sensitivePaths) (hp : p ∈ sensitivePaths) (hne : p' ≠ p) :
    containsSubstr (sensReason p' n) p = false := by
  have hslash : (Nat.repr n).data.count '/' = 0 := repr_count_eq_zero '/' n (by decide)
  fin_cases hp' <;> fin_cases hp <;>
    first
    | exact absurd rfl hne
    | exact containsSubstr_false_of_missing_char 'g' (by decide)
        (not_mem_sensReason 'g' (by decide) (by decide) (by decide) (by decide) (by decide))
    | exact containsSubstr_false_of_missing_char 'd' (by decide)
        (not_mem_sensReason 'd' (by decide) (by decide) (by decide) (by decide) (by decide))
    | (apply containsSubstr_false_of_count '/'
       unfold sensReason
       simp only [String.data_append, List.count_append, hslash]
       decide)

/-! ## Structural lemmas about the anomaly scanner -/

theorem dedup_all_eq {l : List String} {a : String} (hne : l ≠ [])
    (hall : ∀ x ∈ l, x = a) : l.dedup = [a] := by
  induction l with
  | nil => exact absurd rfl hne
  | cons x xs ih =>
    have hx : x = a := hall x (List.mem_cons_self x xs)
    by_cases hmem : x ∈ xs
    · rw [List.dedup_cons_of_mem hmem]
      apply ih
      · intro h; rw [h] at hmem; cases hmem
      · intro z hz; exact hall z (List.mem_cons_of_mem x hz)
    · have hxs : xs = [] := by
        rcases hxs : xs with _ | ⟨y, ys⟩
        · rfl
        · exfalso
          apply hmem
          rw [hxs]
          have hy : y = a := hall y (by
            rw [hxs]
            exact List.mem_cons_of_mem x (List.mem_cons_self y ys))
          rw [hx, ← hy]
          exact List.mem_cons_self y ys
      subst hxs
      rw [hx]
      simp

theorem distinctIps_single {logsl : List RequestRecord} {ip : String}
    (hne : logsl ≠ []) (hall : ∀ r ∈ logsl, r.ip_address = ip) :
    distinctIps logsl = [ip] := by
  unfold distinctIps
  apply dedup_all_eq
  · simp [hne]
  · intro x hx
    obtain ⟨r, hr, hrx⟩ := List.mem_map.mp hx
    rw [← hrx]
    exact hall r hr

theorem ipCount_all {logsl : List RequestRecord} {ip : String}
    (hall : ∀ r ∈ logsl, r.ip_address = ip) : ipCount logsl ip = logsl.length := by
  unfold ipCount
  rw [List.filter_eq_self.mpr]
  intro r hr
  simp [hall r hr]

theorem windowLogs_all {logsl : List RequestRecord} {cutoff : Instant}
    (hts : ∀ r ∈ logsl, cutoff ≤ r.timestamp) : windowLogs logsl cutoff = logsl := by
  unfold windowLogs
  rw [List.filter_eq_self.mpr]
  intro r hr
  simpa using hts r hr

/-- Rule 1 is inert when the single ip's volume is at most 100. -/
theorem ruleVolume_no_create {wLogs : List RequestRecord} {cutoff now : Instant}
    {acc : List SuspiciousIPEntry × Nat} {ip : String}
    (hall : ∀ r ∈ wLogs, r.ip_address = ip) (hle : ipCount wLogs ip ≤ 100) :
    ruleVolume wLogs cutoff now acc = acc := by
  unfold ruleVolume
  rcases hw : wLogs with _ | ⟨r, rest⟩
  · simp [distinctIps]
  · rw [← hw, distinctIps_single (by rw [hw]; simp) hall]
    have hngt : ¬ (100 < ipCount wLogs ip) := by omega
    simp [ruleVolumeStep, hngt]

/-- Rule 1 is inert when a window flag for the single ip already exists. -/
theorem ruleVolume_suppressed {wLogs : List RequestRecord} {cutoff now : Instant}
    {acc : List SuspiciousIPEntry × Nat} {ip : String}
    (hall : ∀ r ∈ wLogs, r.ip_address = ip)
    (hded : recentFlagAny acc.1 ip cutoff = true) :
    ruleVolume wLogs cutoff now acc = acc := by
  unfold ruleVolume
  rcases hw : wLogs with _ | ⟨r, rest⟩
  · simp [distinctIps]
  · rw [← hw, distinctIps_single (by rw [hw]; simp) hall]
    simp [ruleVolumeStep, hded]

/-- Rule 1 creates the volume flag when the threshold is passed and no
window flag for the ip exists. -/
theorem ruleVolume_creates {wLogs : List RequestRecord} {cutoff now : Instant}
    {flags : List SuspiciousIPEntry} {cnt : Nat} {ip : String}
    (hall : ∀ r ∈ wLogs, r.ip_address = ip) (hgt : 100 < ipCount wLogs ip)
    (hded : recentFlagAny flags ip cutoff = false) :
    ruleVolume wLogs cutoff now (flags, cnt) =
      (flags ++ [mkVolumeFlag ip (ipCount wLogs ip) now], cnt + 1) := by
  unfold ruleVolume
  have hne : wLogs ≠ [] := by
    intro h
    rw [h] at hgt
    simp [ipCount] at hgt
  rw [distinctIps_single hne hall]
  simp [ruleVolumeStep, hgt, hded]

/-- A sensitive-path step does nothing when no log line matches its path. -/
theorem ruleSensStep_empty {wLogs : List RequestRecord} {cutoff now : Instant}
    {acc : List SuspiciousIPEntry × Nat} {p : String}
    (h : wLogs.filter (fun r => pathStartsWith r p) = []) :
    ruleSensStep wLogs cutoff now acc p = acc := by
  unfold ruleSensStep
  rw [h]
  simp [distinctIps]

/-- A sensitive-path step does nothing when the single ip's per-path volume
is at most 10. -/
theorem ruleSensStep_no_create {wLogs : List RequestRecord} {cutoff now : Instant}
    {acc : List SuspiciousIPEntry × Nat} {p ip : String}
    (hall : ∀ r ∈ wLogs.filter (fun r => pathStartsWith r p), r.ip_address = ip)
    (hle : (wLogs.filter (fun r => pathStartsWith r p)).length ≤ 10) :
    ruleSensStep wLogs cutoff now acc p = acc := by
  unfold ruleSensStep
  rcases hw : wLogs.filter (fun r => pathStartsWith r p) with _ | ⟨r, rest⟩
  · simp [distinctIps]
  · rw [← hw, distinctIps_single (by rw [hw]; simp) hall]
    have hcount : ipCount (wLogs.filter (fun r => pathStartsWith r p)) ip ≤ 10 := by
      rw [ipCount_all hall]
      exact hle
    have hngt : ¬ (10 < ipCount (wLogs.filter (fun r => pathStartsWith r p)) ip) := by omega
    simp [ruleSensIpStep, hngt]

/-- A sensitive-path step does nothing when a window flag for the ip whose
reason contains the path already exists (regardless of its resolution bit). -/
theorem ruleSensStep_suppressed {wLogs : List RequestRecord} {cutoff now : Instant}
    {flags : List SuspiciousIPEntry} {cnt : Nat} {p ip : String}
    (hall : ∀ r ∈ wLogs.filter (fun r => pathStartsWith r p), r.ip_address = ip)
    (hded : recentFlagWithReason flags ip cutoff p = true) :
    ruleSensStep wLogs cutoff now (flags, cnt) p = (flags, cnt) := by
  unfold ruleSensStep
  rcases hw : wLogs.filter (fun r => pathStartsWith r p) with _ | ⟨r, rest⟩
  · simp [distinctIps]
  · rw [← hw, distinctIps_single (by rw [hw]; simp) hall]
    simp [ruleSensIpStep, hded]

/-- A sensitive-path step creates the flag when the threshold is passed and
no window flag for the ip mentions the path. -/
theorem ruleSensStep_creates {wLogs : List RequestRecord} {cutoff now : Instant}
    {flags : List SuspiciousIPEntry} {cnt : Nat} {p ip : String}
    (hall : ∀ r ∈ wLogs.filter (fun r => pathStartsWith r p), r.ip_address = ip)
    (hgt : 10 < (wLogs.filter (fun r => pathStartsWith r p)).length)
    (hded : recentFlagWithReason flags ip cutoff p = false) :
    ruleSensStep wLogs cutoff now (flags, cnt) p =
      (flags ++ [mkSensFlag ip p (wLogs.filter (fun r => pathStartsWith r p)).length now],
       cnt + 1) := by
  unfold ruleSensStep
  have hne : wLogs.filter (fun r => pathStartsWith r p) ≠ [] := by
    intro h
    rw [h] at hgt
    simp at hgt
  rw [distinctIps_single hne hall]
  have hcount : ipCount (wLogs.filter (fun r => pathStartsWith r p)) ip =
      (wLogs.filter (fun r => pathStartsWith r p)).length := ipCount_all hall
  simp [ruleSensIpStep, hcount, hgt, hded]

/-- A fold of sensitive-path steps that are all inert is inert. -/
theorem ruleSens_fold_id {wLogs : List RequestRecord} {cutoff now : Instant}
    {acc : List SuspiciousIPEntry × Nat} {ps : List String}
    (hid : ∀ p ∈ ps, ruleSensStep wLogs cutoff now acc p = acc) :
    ps.foldl (ruleSensStep wLogs cutoff now) acc = acc := by
  induction ps with
  | nil => rfl
  | cons p ps' ih =>
    rw [List.foldl_cons, hid p (List.mem_cons_self p ps')]
    exact ih (fun q hq => hid q (List.mem_cons_of_mem p hq))

theorem sensitive_incomparable {p q : String} (hp : p ∈ sensitivePaths)
    (hq : q ∈ sensitivePaths) (hne : p ≠ q) {l : List Char}
    (hpl : p.data <+: l) (hql : q.data <+: l) : False := by
  rcases List.prefix_or_prefix_of_prefix hpl hql with h | h <;>
    fin_cases hp <;> fin_cases hq <;>
      first
      | exact hne rfl
      | exact absurd h (by decide)

/-- When every log line targets sensitive prefix `p`, the filter of any other
sensitive prefix is empty. -/
theorem filter_other_path_empty {logsl : List RequestRecord} {p q : String}
    (hp : p ∈ sensitivePaths) (hq : q ∈ sensitivePaths) (hne : p ≠ q)
    (hall : ∀ r ∈ logsl, pathStartsWith r p = true) :
    logsl.filter (fun r => pathStartsWith r q) = [] := by
  rw [List.filter_eq_nil_iff]
  intro r hr hq'
  have hp' := hall r hr
  unfold pathStartsWith at hp' hq'
  rw [decide_eq_true_eq] at hp' hq'
  exact sensitive_incomparable hp hq hne hp' hq'

/-- Closed form of rule 2's fold over distinct sensitive prefixes for a
single-ip log set: starting from old flags (none in the window for the ip)
plus flags created earlier this run whose reasons mention none of the
remaining prefixes, each prefix appends its flag exactly when its per-path
volume passes 10. -/
theorem ruleSens_fold_closed (logsl : List RequestRecord) (flags0 : List SuspiciousIPEntry)
    (now : Instant) (ip : String)
    (hip : ∀ r ∈ logsl, r.ip_address = ip)
    (hfl0 : ∀ f ∈ flags0, f.ip_address = ip → f.flagged_at < now - 3600) :
    ∀ (ps : List String) (ext : List SuspiciousIPEntry) (cnt : Nat),
      (∀ q ∈ ps, q ∈ sensitivePaths) → ps.Nodup →
      (∀ f ∈ ext, f.ip_address = ip ∧ ∀ q ∈ ps, containsSubstr f.reason q = false) →
      ps.foldl (ruleSensStep logsl (now - 3600) now) (flags0 ++ ext, cnt) =
        (flags0 ++ ext ++ (ps.filter (fun p =>
            decide (10 < (logsl.filter (fun r => pathStartsWith r p)).length))).map
            (fun p => mkSensFlag ip p (logsl.filter (fun r => pathStartsWith r p)).length now),
         cnt + (ps.filter (fun p =>
            decide (10 < (logsl.filter (fun r => pathStartsWith r p)).length))).length) := by
  intro ps
  induction ps with
  | nil =>
    intro ext cnt _ _ _
    simp
  | cons p ps' ih =>
    intro ext cnt hps hnd hext
    have hnd' := List.nodup_cons.mp hnd
    have hallp : ∀ r ∈ logsl.filter (fun r => pathStartsWith r p), r.ip_address = ip :=
      fun r hr => hip r (List.mem_filter.mp hr).1
    rw [List.foldl_cons]
    by_cases hthr : 10 < (logsl.filter (fun r => pathStartsWith r p)).length
    · have hded : recentFlagWithReason (flags0 ++ ext) ip (now - 3600) p = false := by
        unfold recentFlagWithReason
        rw [List.any_eq_false]
        intro f hf hcontra
        rw [Bool.and_eq_true, Bool.and_eq_true] at hcontra
        obtain ⟨⟨hc1, hc2⟩, hc3⟩ := hcontra
        have hfip : f.ip_address = ip := by simpa using hc1
        rcases List.mem_append.mp hf with hf0 | hfe
        · have hlt := hfl0 f hf0 hfip
          rw [decide_eq_true_eq] at hc2
          exact absurd hc2 (not_le.mpr hlt)
        · have hnc := (hext f hfe).2 p (List.mem_cons_self p ps')
          rw [hnc] at hc3
          cases hc3
      rw [ruleSensStep_creates hallp hthr hded]
      have hext' : ∀ f ∈ ext ++
          [mkSensFlag ip p (logsl.filter (fun r => pathStartsWith r p)).length now],
          f.ip_address = ip ∧ ∀ q ∈ ps', containsSubstr f.reason q = false := by
        intro f hf
        rcases List.mem_append.mp hf with hfe | hfn
        · exact ⟨(hext f hfe).1, fun q hq => (hext f hfe).2 q (List.mem_cons_of_mem p hq)⟩
        · rw [List.mem_singleton] at hfn
          subst hfn
          refine ⟨rfl, ?_⟩
          intro q hq
          have hqs : q ∈ sensitivePaths := hps q (List.mem_cons_of_mem p hq)
          have hpq : p ≠ q := by
            intro h
            rw [h] at hnd'
            exact hnd'.1 hq
          exact sensReason_not_contains_other _ (hps p (List.mem_cons_self p ps')) hqs hpq
      have hrec := ih (ext ++
          [mkSensFlag ip p (logsl.filter (fun r => pathStartsWith r p)).length now])
        (cnt + 1) (fun q hq => hps q (List.mem_cons_of_mem p hq)) hnd'.2 hext'
      rw [List.append_assoc, hrec]
      have hdec : decide (10 < (logsl.filter (fun r => pathStartsWith r p)).length) = true :=
        decide_eq_true hthr
      simp only [List.filter_cons, hdec, if_true, List.map_cons, List.length_cons,
        Prod.mk.injEq]
      constructor
      · simp [List.append_assoc]
      · omega
    · have hle : (logsl.filter (fun r => pathStartsWith r p)).length ≤ 10 := by omega
      rw [ruleSensStep_no_create hallp hle]
      have hext'' : ∀ f ∈ ext, f.ip_address = ip ∧
          ∀ q ∈ ps', containsSubstr f.reason q = false :=
        fun f hf => ⟨(hext f hf).1, fun q hq => (hext f hf).2 q (List.mem_cons_of_mem p hq)⟩
      rw [ih ext cnt (fun q hq => hps q (List.mem_cons_of_mem p hq)) hnd'.2 hext'']
      have hdec : decide (10 < (logsl.filter (fun r => pathStartsWith r p)).length) = false :=
        decide_eq_false hthr
      simp only [List.filter_cons, hdec, Bool.false_eq_true, if_false]

/-- Claim C5 as stated is false on the code: rule 2's dedup query does not
filter on `is_resolved`, so a resolved window flag whose reason mentions the
prefix suppresses creation — here 11 `/admin` requests produce no new flag
because an already-resolved matching flag sits in the window. -/
theorem c5_counterexample :
    c5Logs.length = 11 ∧
    (∀ f ∈ [c5ResolvedFlag], f.is_resolved = true) ∧
    detect_anomalies c5Logs [c5ResolvedFlag] 1000000 = ([c5ResolvedFlag], 0) := by
  refine ⟨by decide, by decide, ?_⟩
  decide

/-- Claim C5 amended: for a sensitive prefix and an ip exceeding 10 matching
requests in the window, the scan creates the flag
`Multiple attempts to {prefix}: {count} times in last hour` if and only if
no flag for that ip — resolved or not — with flagged-at in the window and
reason containing the prefix exists.  The flag table is arbitrary: a
matching window flag suppresses creation regardless of its resolution bit,
while window flags for the ip whose reason does not contain the prefix do
not suppress it. -/
theorem c5_sensitive_path_rule (logs : List RequestRecord) (flags : List SuspiciousIPEntry)
    (now : Instant) (p ip : String) (hp : p ∈ sensitivePaths)
    (hip : ∀ r ∈ logs, r.ip_address = ip)
    (hpath : ∀ r ∈ logs, pathStartsWith r p = true)
    (hts : ∀ r ∈ logs, now - 3600 ≤ r.timestamp)
    (hgt : 10 < logs.length) (hle : logs.length ≤ 100) :
    detect_anomalies logs flags now =
      if (∃ f ∈ flags, f.ip_address = ip ∧ now - 3600 ≤ f.flagged_at ∧
          containsSubstr f.reason p = true)
      then (flags, 0)
      else (flags ++ [mkSensFlag ip p logs.length now], 1) := by
  have hw : windowLogs logs (now - 3600) = logs := windowLogs_all hts
  have hfp : logs.filter (fun r => pathStartsWith r p) = logs :=
    List.filter_eq_self.mpr hpath
  have hcount : ipCount logs ip = logs.length := ipCount_all hip
  have hdetect : detect_anomalies logs flags now =
      ruleSens logs (now - 3600) now (ruleVolume logs (now - 3600) now (flags, 0)) := by
    show ruleSens (windowLogs logs (now - 3600)) (now - 3600) now
      (ruleVolume (windowLogs logs (now - 3600)) (now - 3600) now (flags, 0)) = _
    rw [hw]
  have hvol : ruleVolume logs (now - 3600) now (flags, 0) = (flags, 0) :=
    ruleVolume_no_create hip (by rw [hcount]; exact hle)
  by_cases hc : ∃ f ∈ flags, f.ip_address = ip ∧ now - 3600 ≤ f.flagged_at ∧
      containsSubstr f.reason p = true
  · rw [if_pos hc]
    obtain ⟨f, hf, hfip, hfts, hfreason⟩ := hc
    have hded : recentFlagWithReason flags ip (now - 3600) p = true := by
      unfold recentFlagWithReason
      rw [List.any_eq_true]
      exact ⟨f, hf, by simp [hfip, hfts, hfreason]⟩
    rw [hdetect, hvol]
    unfold ruleSens
    apply ruleSens_fold_id
    intro q hq
    by_cases hpq : q = p
    · subst hpq
      exact ruleSensStep_suppressed (fun r hr => hip r (List.mem_filter.mp hr).1) hded
    · apply ruleSensStep_empty
      exact filter_other_path_empty hp hq (fun h => hpq h.symm) hpath
  · rw [if_neg hc]
    have hnop : ∀ f ∈ flags, f.ip_address = ip → now - 3600 ≤ f.flagged_at →
        containsSubstr f.reason p = false := by
      intro f hf hfip hfts
      cases hcr : containsSubstr f.reason p
      · rfl
      · exact absurd ⟨f, hf, hfip, hfts, hcr⟩ hc
    have hded : recentFlagWithReason flags ip (now - 3600) p = false := by
      unfold recentFlagWithReason
      rw [List.any_eq_false]
      intro f hf hcontra
      rw [Bool.and_eq_true, Bool.and_eq_true] at hcontra
      obtain ⟨⟨hc1, hc2⟩, hc3⟩ := hcontra
      have hfip : f.ip_address = ip := by simpa using hc1
      rw [decide_eq_true_eq] at hc2
      rw [hnop f hf hfip hc2] at hc3
      cases hc3
    rw [hdetect, hvol]
    unfold ruleSens
    have hstep_p : ruleSensStep logs (now - 3600) now (flags, 0) p =
        (flags ++ [mkSensFlag ip p logs.length now], 0 + 1) := by
      rw [ruleSensStep_creates (fun r hr => hip r (List.mem_filter.mp hr).1)
        (by rw [hfp]; exact hgt) hded, hfp]
    fin_cases hp
    · have he2 : logs.filter (fun r => pathStartsWith r "/login") = [] :=
        filter_other_path_empty (by decide) (by decide) (by decide) hpath
      have he3 : logs.filter (fun r => pathStartsWith r "/api/auth") = [] :=
        filter_other_path_empty (by decide) (by decide) (by decide) hpath
      simp only [sensitivePaths, List.foldl_cons, List.foldl_nil]
      rw [hstep_p, ruleSensStep_empty he2, ruleSensStep_empty he3]
    · have he1 : logs.filter (fun r => pathStartsWith r "/admin") = [] :=
        filter_other_path_empty (by decide) (by decide) (by decide) hpath
      have he3 : logs.filter (fun r => pathStartsWith r "/api/auth") = [] :=
        filter_other_path_empty (by decide) (by decide) (by decide) hpath
      simp only [sensitivePaths, List.foldl_cons, List.foldl_nil]
      rw [ruleSensStep_empty he1, hstep_p, ruleSensStep_empty he3]
    · have he1 : logs.filter (fun r => pathStartsWith r "/admin") = [] :=
        filter_other_path_empty (by decide) (by decide) (by decide) hpath
      have he2 : logs.filter (fun r => pathStartsWith r "/login") = [] :=
        filter_other_path_empty (by decide) (by decide) (by decide) hpath
      simp only [sensitivePaths, List.foldl_cons, List.foldl_nil]
      rw [ruleSensStep_empty he1, ruleSensStep_empty he2, hstep_p]

/-- Witness for the amended C5, exercising both branches: with the resolved
matching `/admin` flag in the window the scan creates nothing, and with only
an unresolved window flag whose reason does not mention `/admin` the scan
still creates the `/admin` flag — the dedup keys on the reason text, not on
resolution. -/
theorem c5_witness :
    ("/admin" ∈ sensitivePaths ∧ (∀ r ∈ c5Logs, r.ip_address = "5.6.7.8") ∧
      (∀ r ∈ c5Logs, pathStartsWith r "/admin" = true) ∧
      (∀ r ∈ c5Logs, 1000000 - 3600 ≤ r.timestamp) ∧
      10 < c5Logs.length ∧ c5Logs.length ≤ 100 ∧
      (∃ f ∈ [c5ResolvedFlag], f.ip_address = "5.6.7.8" ∧
        1000000 - 3600 ≤ f.flagged_at ∧ containsSubstr f.reason "/admin" = true) ∧
      ¬ (∃ f ∈ [c5OtherFlag], f.ip_address = "5.6.7.8" ∧
        1000000 - 3600 ≤ f.flagged_at ∧ containsSubstr f.reason "/admin" = true)) ∧
    (detect_anomalies c5Logs [c5ResolvedFlag] 1000000 =
      if (∃ f ∈ [c5ResolvedFlag], f.ip_address = "5.6.7.8" ∧
          1000000 - 3600 ≤ f.flagged_at ∧ containsSubstr f.reason "/admin" = true)
      then ([c5ResolvedFlag], 0)
      else ([c5ResolvedFlag] ++
        [mkSensFlag "5.6.7.8" "/admin" c5Logs.length 1000000], 1)) ∧
    (detect_anomalies c5Logs [c5OtherFlag] 1000000 =
      if (∃ f ∈ [c5OtherFlag], f.ip_address = "5.6.7.8" ∧
          1000000 - 3600 ≤ f.flagged_at ∧ containsSubstr f.reason "/admin" = true)
      then ([c5OtherFlag], 0)
      else ([c5OtherFlag] ++
        [mkSensFlag "5.6.7.8" "/admin" c5Logs.length 1000000], 1)) :=
  ⟨⟨by decide, by decide, by decide, by decide, by decide, by decide, by decide, by decide⟩,
   c5_sensitive_path_rule c5Logs [c5ResolvedFlag] 1000000 "/admin" "5.6.7.8"
     (by decide) (by decide) (by decide) (by decide) (by decide) (by decide),
   c5_sensitive_path_rule c5Logs [c5OtherFlag] 1000000 "/admin" "5.6.7.8"
     (by decide) (by decide) (by decide) (by decide) (by decide) (by decide)⟩

/-- Closed form of a full scan in the C4 scenario: 101 same-ip window
records and no prior window flag for the ip.  Rule 1 creates the volume
flag; rule 2 then adds one per-prefix flag for every sensitive prefix whose
per-path count passes 10. -/
theorem c4_run1 (logs : List RequestRecord) (flags : List SuspiciousIPEntry) (now : Instant)
    (hlen : logs.length = 101)
    (hip : ∀ r ∈ logs, r.ip_address = "1.2.3.4")
    (hts : ∀ r ∈ logs, now - 3600 ≤ r.timestamp)
    (hfl : ∀ f ∈ flags, f.ip_address = "1.2.3.4" → f.flagged_at < now - 3600) :
    detect_anomalies logs flags now =
      (flags ++ [mkVolumeFlag "1.2.3.4" 101 now] ++
        (sensitivePaths.filter (fun p =>
            decide (10 < (logs.filter (fun r => pathStartsWith r p)).length))).map
          (fun p => mkSensFlag "1.2.3.4" p
            (logs.filter (fun r => pathStartsWith r p)).length now),
       1 + (sensitivePaths.filter (fun p =>
            decide (10 < (logs.filter (fun r => pathStartsWith r p)).length))).length) := by
  have hw : windowLogs logs (now - 3600) = logs := windowLogs_all hts
  have hcount : ipCount logs "1.2.3.4" = 101 := by rw [ipCount_all hip, hlen]
  have hdetect : detect_anomalies logs flags now =
      ruleSens logs (now - 3600) now (ruleVolume logs (now - 3600) now (flags, 0)) := by
    show ruleSens (windowLogs logs (now - 3600)) (now - 3600) now
      (ruleVolume (windowLogs logs (now - 3600)) (now - 3600) now (flags, 0)) = _
    rw [hw]
  have hded : recentFlagAny flags "1.2.3.4" (now - 3600) = false := by
    unfold recentFlagAny
    rw [List.any_eq_false]
    intro f hf hcontra
    rw [Bool.and_eq_true] at hcontra
    have hfip : f.ip_address = "1.2.3.4" := by simpa using hcontra.1
    have hc2 := hcontra.2
    rw [decide_eq_true_eq] at hc2
    exact absurd hc2 (not_le.mpr (hfl f hf hfip))
  have hvol : ruleVolume logs (now - 3600) now (flags, 0) =
      (flags ++ [mkVolumeFlag "1.2.3.4" 101 now], 1) := by
    rw [ruleVolume_creates hip (by rw [hcount]; norm_num) hded, hcount]
  rw [hdetect, hvol]
  have hext : ∀ f ∈ [mkVolumeFlag "1.2.3.4" 101 now], f.ip_address = "1.2.3.4" ∧
      ∀ q ∈ sensitivePaths, containsSubstr f.reason q = false := by
    intro f hf
    rw [List.mem_singleton] at hf
    subst hf
    exact ⟨rfl, fun _ hq => volumeReason_not_contains_path hq⟩
  exact ruleSens_fold_closed logs flags now "1.2.3.4" hip hfl sensitivePaths
    [mkVolumeFlag "1.2.3.4" 101 now] 1 (fun _ hq => hq) (by decide) hext

/-- A second scan within the same rolling hour over an unchanged log store is
inert once the first run's volume flag and per-prefix flags are in the
table. -/
theorem detect_second_run (logs : List RequestRecord) (flags₁ : List SuspiciousIPEntry)
    (now now' : Instant)
    (hip : ∀ r ∈ logs, r.ip_address = "1.2.3.4")
    (hge : now ≤ now') (hle' : now' ≤ now + 3600)
    (hvf : mkVolumeFlag "1.2.3.4" 101 now ∈ flags₁)
    (hbf : ∀ p ∈ sensitivePaths, 10 < (logs.filter (fun r => pathStartsWith r p)).length →
      mkSensFlag "1.2.3.4" p (logs.filter (fun r => pathStartsWith r p)).length now
        ∈ flags₁) :
    detect_anomalies logs flags₁ now' = (flags₁, 0) := by
  have hcut : now' - 3600 ≤ now := by
    rw [sub_le_iff_le_add]
    exact hle'
  show ruleSens (windowLogs logs (now' - 3600)) (now' - 3600) now'
    (ruleVolume (windowLogs logs (now' - 3600)) (now' - 3600) now' (flags₁, 0)) = _
  have hallw : ∀ r ∈ windowLogs logs (now' - 3600), r.ip_address = "1.2.3.4" := by
    intro r hr
    exact hip r (List.mem_filter.mp hr).1
  have hvol : ruleVolume (windowLogs logs (now' - 3600)) (now' - 3600) now' (flags₁, 0)
      = (flags₁, 0) := by
    by_cases hc : 100 < ipCount (windowLogs logs (now' - 3600)) "1.2.3.4"
    · apply ruleVolume_suppressed hallw
      unfold recentFlagAny
      rw [List.any_eq_true]
      refine ⟨mkVolumeFlag "1.2.3.4" 101 now, hvf, ?_⟩
      simp [mkVolumeFlag, hcut]
    · exact ruleVolume_no_create hallw (by omega)
  rw [hvol]
  apply ruleSens_fold_id
  intro p hp
  by_cases hthr :
      10 < ((windowLogs logs (now' - 3600)).filter (fun r => pathStartsWith r p)).length
  · have hsub : List.Sublist
        ((windowLogs logs (now' - 3600)).filter (fun r => pathStartsWith r p))
        (logs.filter (fun r => pathStartsWith r p)) :=
      List.Sublist.filter _ (List.filter_sublist logs)
    have hgt1 : 10 < (logs.filter (fun r => pathStartsWith r p)).length :=
      lt_of_lt_of_le hthr hsub.length_le
    apply ruleSensStep_suppressed (fun r hr => hallw r (List.mem_filter.mp hr).1)
    unfold recentFlagWithReason
    rw [List.any_eq_true]
    refine ⟨mkSensFlag "1.2.3.4" p (logs.filter (fun r => pathStartsWith r p)).length now,
      hbf p hp hgt1, ?_⟩
    simp [mkSensFlag, hcut, sensReason_contains]
  · exact ruleSensStep_no_create (fun r hr => hallw r (List.mem_filter.mp hr).1) (by omega)

/-- Claim C4: with 101 records for ip `1.2.3.4` timestamped within the
trailing hour as the ip's log content, and no window flag for that ip,
one scan creates exactly one flag with request_count 101 and reason
containing "High request volume" for that ip; and a second scan within the
same rolling hour over the unchanged log store creates zero further flags. -/
theorem c4_volume_flag_spec (logs : List RequestRecord) (flags : List SuspiciousIPEntry)
    (now : Instant)
    (hlen : logs.length = 101)
    (hip : ∀ r ∈ logs, r.ip_address = "1.2.3.4")
    (hts : ∀ r ∈ logs, now - 3600 ≤ r.timestamp ∧ r.timestamp ≤ now)
    (hfl : ∀ f ∈ flags, f.ip_address = "1.2.3.4" → f.flagged_at < now - 3600) :
    (∃ nf, (detect_anomalies logs flags now).1 = flags ++ nf ∧
      (nf.filter (fun f => f.ip_address == "1.2.3.4" && f.request_count == 101 &&
        containsSubstr f.reason "High request volume")).length = 1) ∧
    (∀ now', now ≤ now' → now' ≤ now + 3600 →
      detect_anomalies logs (detect_anomalies logs flags now).1 now' =
        ((detect_anomalies logs flags now).1, 0)) := by
  have hts1 : ∀ r ∈ logs, now - 3600 ≤ r.timestamp := fun r hr => (hts r hr).1
  have hrun1 := c4_run1 logs flags now hlen hip hts1 hfl
  constructor
  · refine ⟨[mkVolumeFlag "1.2.3.4" 101 now] ++
      (sensitivePaths.filter (fun p =>
          decide (10 < (logs.filter (fun r => pathStartsWith r p)).length))).map
        (fun p => mkSensFlag "1.2.3.4" p
          (logs.filter (fun r => pathStartsWith r p)).length now), ?_, ?_⟩
    · rw [hrun1]
      simp [List.append_assoc]
    · rw [List.filter_append]
      have hnil : (((sensitivePaths.filter (fun p =>
          decide (10 < (logs.filter (fun r => pathStartsWith r p)).length))).map
            (fun p => mkSensFlag "1.2.3.4" p
              (logs.filter (fun r => pathStartsWith r p)).length now)).filter
          (fun f => f.ip_address == "1.2.3.4" && f.request_count == 101 &&
            containsSubstr f.reason "High request volume")) = [] := by
        rw [List.filter_eq_nil_iff]
        intro f hf
        obtain ⟨p, hpmem, hpf⟩ := List.mem_map.mp hf
        subst hpf
        intro hcontra
        rw [Bool.and_eq_true] at hcontra
        have hc3 := hcontra.2
        simp only [mkSensFlag] at hc3
        rw [sensReason_not_contains_high (List.mem_filter.mp hpmem).1] at hc3
        cases hc3
      rw [hnil, List.append_nil]
      have hpred : ((mkVolumeFlag "1.2.3.4" 101 now).ip_address == "1.2.3.4" &&
          (mkVolumeFlag "1.2.3.4" 101 now).request_count == 101 &&
          containsSubstr (mkVolumeFlag "1.2.3.4" 101 now).reason "High request volume")
          = true := by
        simp only [mkVolumeFlag]
        decide
      simp [List.filter_cons, hpred]
  · intro now' hge hle'
    apply detect_second_run logs _ now now' hip hge hle'
    · rw [hrun1]
      exact List.mem_append_left _ (List.mem_append_right _ (List.mem_singleton_self _))
    · intro p hp hthr
      rw [hrun1]
      exact List.mem_append_right _ (List.mem_map_of_mem _
        (List.mem_filter.mpr ⟨hp, decide_eq_true hthr⟩))

/-- Witness for C4: 101 identical window records and an empty flag table. -/
theorem c4_witness :
    (c4Logs.length = 101 ∧ (∀ r ∈ c4Logs, r.ip_address = "1.2.3.4") ∧
      (∀ r ∈ c4Logs, 1000000 - 3600 ≤ r.timestamp ∧ r.timestamp ≤ 1000000) ∧
      (∀ f ∈ ([] : List SuspiciousIPEntry), f.ip_address = "1.2.3.4" →
        f.flagged_at < 1000000 - 3600)) ∧
    ((∃ nf, (detect_anomalies c4Logs [] 1000000).1 = [] ++ nf ∧
      (nf.filter (fun f => f.ip_address == "1.2.3.4" && f.request_count == 101 &&
        containsSubstr f.reason "High request volume")).length = 1) ∧
    (∀ now', 1000000 ≤ now' → now' ≤ 1000000 + 3600 →
      detect_anomalies c4Logs (detect_anomalies c4Logs [] 1000000).1 now' =
        ((detect_anomalies c4Logs [] 1000000).1, 0))) :=
  ⟨⟨by decide, by decide, by decide, by decide⟩,
   c4_volume_flag_spec c4Logs [] 1000000 (by decide) (by decide) (by decide) (by decide)⟩

end IpTracking
